import Mathlib

/-!
# Verification of the aks-engine template-assembly engine (`pkg/engine/engine.go`)

This file gives a shallow embedding, in Lean 4, of the functions of
`pkg/engine/engine.go` that the verified claims are about, together with the
theorems settling those claims.

Modelling conventions:
* A Go `string` is modelled as `List Char` (`GoStr`); Go byte slices
  (`[]byte`) are modelled as `List Nat` with each element `< 256`.
* Go maps are modelled as association lists with overwrite-on-assign
  (`mapSet`) and first-hit lookup (`lookupA`), mirroring `m[k] = v` and
  `m[k]`/`,ok` reads.
* Fallible Go functions returning `(T, error)` are modelled as
  `Except GoStr T`; a Go `panic` is modelled as an `Except.error`.
* External I/O (HTTP GET, the asset store) is modelled by passing the
  external world as an explicit function argument.
-/

namespace AksEngine

/-- A Go string, modelled as its list of characters (runes). -/
abbrev GoStr := List Char

/-- Conversion from a Lean string literal to the `GoStr` model. -/
def gs (s : String) : GoStr := s.data

/-- The recursion of `strings.Replace` with an explicit bound: each step
consumes at least one element of `s`, so `s.length` steps always suffice
(`replaceAll` below supplies them); the bound keeps the recursion structural
so that concrete inputs evaluate inside the kernel. -/
def replaceAllF {α : Type} [DecidableEq α] :
    Nat → List α → List α → List α → List α
  | 0, s, _, _ => s
  | _ + 1, [], _, _ => []
  | fuel + 1, c :: rest, pat, rep =>
    if pat ≠ [] ∧ pat.isPrefixOf (c :: rest) then
      rep ++ replaceAllF fuel ((c :: rest).drop pat.length) pat rep
    else
      c :: replaceAllF fuel rest pat rep

/-- `strings.Replace(s, pat, rep, -1)`: replace every non-overlapping
occurrence of `pat` in `s` by `rep`, scanning left to right.  (For the empty
pattern Go inserts `rep` at every boundary; the engine only ever replaces
nonempty literal tokens, and for an empty `pat` this model returns `s`.)
Generic in the element type so the same model serves Go strings and
Go byte slices. -/
def replaceAll {α : Type} [DecidableEq α] (s pat rep : List α) : List α :=
  replaceAllF s.length s pat rep

/-- Association-list lookup, modelling a Go map read `v, ok := m[k]`. -/
def lookupA {α β : Type} [DecidableEq α] (m : List (α × β)) (k : α) : Option β :=
  match m with
  | [] => none
  | (k', v) :: rest => if k = k' then some v else lookupA rest k

/-- Association-list overwrite, modelling a Go map assignment `m[k] = v`. -/
def mapSet {α β : Type} [DecidableEq α] (m : List (α × β)) (k : α) (v : β) :
    List (α × β) :=
  match m with
  | [] => [(k, v)]
  | (k', v') :: rest => if k = k' then (k, v) :: rest else (k', v') :: mapSet rest k v

/-- Render of a Go `int` with `%d` / `strconv.Itoa`. -/
def intRepr (n : Int) : GoStr := (Int.repr n).data

/-- Render of a nonnegative Go `int` with `%d`. -/
def natRepr (n : Nat) : GoStr := (Nat.repr n).data

/-- The `encoding/base64` standard alphabet. -/
def base64Table : List Char :=
  gs "ABCDEFGHIJKLMNOPQRSTUVWXYZabcdefghijklmnopqrstuvwxyz0123456789+/"

/-- The character of the standard base64 alphabet at index `k` (< 64 for every
sextet the encoder produces). -/
def b64c (k : Nat) : Char := base64Table.getD k '?'

/-- `base64.StdEncoding.EncodeToString` on a byte slice: standard base64 with
`=` padding, modelled faithfully from its specification (the Go standard
library is outside the provided sources). -/
def base64Encode : List Nat → List Char
  | [] => []
  | [a] => [b64c (a / 4), b64c (a % 4 * 16), '=', '=']
  | [a, b] => [b64c (a / 4), b64c (a % 4 * 16 + b / 16), b64c (b % 16 * 4), '=']
  | a :: b :: c :: rest =>
    b64c (a / 4) :: b64c (a % 4 * 16 + b / 16) :: b64c (b % 16 * 4 + c / 64) ::
      b64c (c % 64) :: base64Encode rest

/-- Index of a character in the standard base64 alphabet. -/
def b64idx (c : Char) : Option Nat :=
  let rec go : List Char → Nat → Option Nat
    | [], _ => none
    | t :: ts, i => if c = t then some i else go ts (i + 1)
  go base64Table 0

/-- `base64.StdEncoding` decoding (to bytes), modelled from its specification:
groups of four alphabet characters, with `=`-padding allowed only at the very
end. -/
def base64Decode : List Char → Option (List Nat)
  | [] => some []
  | c1 :: c2 :: c3 :: c4 :: rest =>
    match b64idx c1, b64idx c2 with
    | some i1, some i2 =>
      if c3 = '=' then
        if c4 = '=' ∧ rest = [] then some [i1 * 4 + i2 / 16] else none
      else
        match b64idx c3 with
        | some i3 =>
          if c4 = '=' then
            if rest = [] then some [i1 * 4 + i2 / 16, i2 % 16 * 16 + i3 / 4] else none
          else
            match b64idx c4, base64Decode rest with
            | some i4, some bs =>
              some ((i1 * 4 + i2 / 16) :: (i2 % 16 * 16 + i3 / 4) :: (i3 % 4 * 64 + i4) :: bs)
            | _, _ => none
        | none => none
    | _, _ => none
  | _ => none

/-- UTF-8 encoding of one character, modelling Go's `[]byte(str)` conversion
(Go strings are UTF-8 byte sequences). -/
def utf8EncodeChar (c : Char) : List Nat :=
  let n := c.toNat
  if n < 128 then [n]
  else if n < 2048 then [192 + n / 64, 128 + n % 64]
  else if n < 65536 then [224 + n / 4096, 128 + n / 64 % 64, 128 + n % 64]
  else [240 + n / 262144, 128 + n / 4096 % 64, 128 + n / 64 % 64, 128 + n % 64]

/-- `[]byte(str)` : the UTF-8 bytes of a Go string. -/
def utf8Encode (s : GoStr) : List Nat := s.flatMap utf8EncodeChar

/-- `base64.StdEncoding.EncodeToString([]byte(str))` as used throughout the
engine. -/
def base64EncodeToString (s : GoStr) : GoStr := base64Encode (utf8Encode s)

/-! ## The cluster-specification data model

The `api` package is not among the provided sources; the fields below are the
ones `engine.go` reads, with shapes as the spec's data-model section
describes them (pointer-typed profiles become `Option`s where `engine.go`
checks them for `nil`). -/

/-- `api.Extension`: a pool's opt-in reference to a declared extension. -/
structure Extension where
  name : GoStr
  singleOrAll : GoStr
  deriving DecidableEq

/-- `api.ExtensionProfile`: a declared extension (name, version, root URL,
script file name, query string). -/
structure ExtensionProfile where
  name : GoStr
  version : GoStr
  rootURL : GoStr
  script : GoStr
  urlQuery : GoStr
  deriving DecidableEq

/-- `api.MasterProfile` (the fields `engine.go` reads). -/
structure MasterProfile where
  count : Int
  dnsPrefix : GoStr
  subnet : GoStr
  firstConsecutiveStaticIP : GoStr
  extensions : List Extension
  deriving DecidableEq

/-- `api.OSType` (`engine.go` compares against `api.Windows`). -/
inductive OSType where
  | linux
  | windows
  deriving DecidableEq

/-- `api.AgentPoolProfile` (the fields `engine.go` reads;
`isAvailabilitySets` models the `IsAvailabilitySets()` accessor). -/
structure AgentPoolProfile where
  name : GoStr
  osType : OSType
  subnet : GoStr
  count : Int
  isAvailabilitySets : Bool
  extensions : List Extension
  deriving DecidableEq

/-- `api.PrivateCluster` (`Enabled *bool`). -/
structure PrivateCluster where
  enabled : Option Bool
  deriving DecidableEq

/-- `api.KubernetesConfig` (the field `engine.go` reads). -/
structure KubernetesConfig where
  privateCluster : Option PrivateCluster
  deriving DecidableEq

/-- `api.OrchestratorProfile` (the fields `engine.go` reads). -/
structure OrchestratorProfile where
  orchestratorType : GoStr
  kubernetesConfig : Option KubernetesConfig
  deriving DecidableEq

/-- `api.CertificateProfile` (the fields `GenerateKubeConfig` reads). -/
structure CertificateProfile where
  caCertificate : GoStr
  kubeConfigCertificate : GoStr
  kubeConfigPrivateKey : GoStr
  deriving DecidableEq

/-- `api.AADProfile` (the fields `GenerateKubeConfig` reads). -/
structure AADProfile where
  tenantID : GoStr
  serverAppID : GoStr
  clientAppID : GoStr
  deriving DecidableEq

/-- `api.Properties`: the cluster specification as `engine.go` consumes it.
`orchestratorProfile`, `certificateProfile` and `aadProfile` are
pointer-typed in Go and nil-checked by `GenerateKubeConfig`, hence `Option`s;
`masterProfile` is dereferenced unconditionally by every claimed function, so
it is modelled as always present. -/
structure Properties where
  orchestratorProfile : Option OrchestratorProfile
  certificateProfile : Option CertificateProfile
  aadProfile : Option AADProfile
  masterProfile : MasterProfile
  agentPoolProfiles : List AgentPoolProfile
  extensionProfiles : List ExtensionProfile
  deriving DecidableEq

/-! ## Network topology generator -/

/-- `getVNETAddressPrefixes` (engine.go:221).  The Go function seeds a
`visitedSubnets` map with the master's subnet and then, for each agent pool,
appends the pool's address-prefix entry when the pool's subnet is not in the
map; the loop never inserts the agent pools' subnets into the map, and the
model reproduces that (the threaded map component never changes). -/
def getVNETAddressPrefixes (properties : Properties) : GoStr :=
  let visitedSubnets : List (GoStr × Bool) :=
    mapSet [] properties.masterProfile.subnet true
  let buf : GoStr := gs "\"[variables('masterSubnet')]\""
  (properties.agentPoolProfiles.foldl
    (fun (st : GoStr × List (GoStr × Bool)) profile =>
      match lookupA st.2 profile.subnet with
      | some _ => st
      | none =>
        (st.1 ++ gs ",\n            \"[variables('" ++ profile.name ++
          gs "Subnet')]\"", st.2))
    (buf, visitedSubnets)).1

/-- The fragments of the `getSecurityRule` format string (engine.go:342),
split at its four `%d` verbs (port, port, port, priority). -/
def secRuleP1 : GoStr :=
  gs "          \x7b\n            \"name\": \"Allow_"
def secRuleP2 : GoStr :=
  gs "\",\n            \"properties\": \x7b\n              \"access\": \"Allow\",\n              \"description\": \"Allow traffic from the Internet to port "
def secRuleP3 : GoStr :=
  gs "\",\n              \"destinationAddressPrefix\": \"*\",\n              \"destinationPortRange\": \""
def secRuleP4 : GoStr :=
  gs "\",\n              \"direction\": \"Inbound\",\n              \"priority\": "
def secRuleP5 : GoStr :=
  gs ",\n              \"protocol\": \"*\",\n              \"sourceAddressPrefix\": \"Internet\",\n              \"sourcePortRange\": \"*\"\n            \x7d\n          \x7d"

/-- `getSecurityRule` (engine.go:339): one inbound security rule for `port`
at zero-based position `portIndex` of the pool's port list, with priority
`BaseLBPriority + portIndex` where `BaseLBPriority = 200`. -/
def getSecurityRule (port : Int) (portIndex : Nat) : GoStr :=
  let BaseLBPriority : Nat := 200
  secRuleP1 ++ intRepr port ++ secRuleP2 ++ intRepr port ++ secRuleP3 ++
    intRepr port ++ secRuleP4 ++ natRepr (BaseLBPriority + portIndex) ++ secRuleP5

/-- `getSecurityRules` (engine.go:392): the comma-joined rules, one per port,
each carrying its zero-based index. -/
def getSecurityRules (ports : List Int) : GoStr :=
  (ports.enum.foldl
    (fun (buf : GoStr) ip =>
      buf ++ (if ip.1 > 0 then gs ",\n" else []) ++ getSecurityRule ip.2 ip.1)
    [])

/-- `getKubernetesPodStartIndex` (engine.go:568): one more than the master
count plus the counts of all non-Windows agent pools. -/
def getKubernetesPodStartIndex (properties : Properties) : Int :=
  let nodeCount :=
    properties.agentPoolProfiles.foldl
      (fun acc ap => if ap.osType ≠ OSType.windows then acc + ap.count else acc)
      properties.masterProfile.count
  nodeCount + 1

/-- The fragments of the `getKubernetesSubnets` per-VM format string
(engine.go:541), split at its two `%d` verbs (both the CIDR counter). -/
def kubSubnetP1 : GoStr :=
  gs "\x7b\n            \"name\": \"podCIDR"
def kubSubnetP2 : GoStr :=
  gs "\",\n            \"properties\": \x7b\n              \"addressPrefix\": \"10.244."
def kubSubnetP3 : GoStr :=
  gs ".0/24\",\n              \"networkSecurityGroup\": \x7b\n                \"id\": \"[variables('nsgID')]\"\n              \x7d,\n              \"routeTable\": \x7b\n                \"id\": \"[variables('routeTableID')]\"\n              \x7d\n            \x7d\n          \x7d"

/-- One Windows pod-CIDR subnet fragment for CIDR counter value `i`. -/
def kubernetesSubnetString (i : Int) : GoStr :=
  kubSubnetP1 ++ intRepr i ++ kubSubnetP2 ++ intRepr i ++ kubSubnetP3

/-- `getKubernetesSubnets` (engine.go:540): one fragment per Windows agent
VM, threading the CIDR counter across pools, starting from
`getKubernetesPodStartIndex`.  (A Go `for i := 0; i < count; i++` loop runs
`count.toNat` times.) -/
def getKubernetesSubnets (properties : Properties) : GoStr :=
  (properties.agentPoolProfiles.foldl
    (fun (st : GoStr × Int) ap =>
      if ap.osType = OSType.windows then
        (List.range ap.count.toNat).foldl
          (fun (st2 : GoStr × Int) _ =>
            (st2.1 ++ gs ",\n" ++ kubernetesSubnetString st2.2, st2.2 + 1))
          st
      else st)
    ([], getKubernetesPodStartIndex properties)).1

/-! ## Helper lemmas on folds and joins -/

/-- Splitting the join of mapped fragments around the `i`-th fragment. -/
theorem join_map_split {α β : Type} (f : α → List β) :
    ∀ (l : List α) (i : Nat) (h : i < l.length),
      ∃ pre suf, (l.map f).flatten = pre ++ f (l.get ⟨i, h⟩) ++ suf
  | a :: l, 0, _ => ⟨[], (l.map f).flatten, by simp⟩
  | a :: l, i + 1, h => by
    obtain ⟨pre, suf, hps⟩ := join_map_split f l i (by simpa using h)
    exact ⟨f a ++ pre, suf, by simp [hps, List.append_assoc]⟩

/-! ## C4: security-rule priorities -/

/-- The fold of `getSecurityRules`, written as a join of fragments. -/
theorem secRules_fold :
    ∀ (l : List (Nat × Int)) (init : GoStr),
      l.foldl
        (fun buf ip =>
          buf ++ (if ip.1 > 0 then gs ",\n" else []) ++ getSecurityRule ip.2 ip.1)
        init =
      init ++ (l.map fun ip =>
        (if ip.1 > 0 then gs ",\n" else []) ++ getSecurityRule ip.2 ip.1).flatten
  | [], init => by simp
  | a :: l, init => by
    simp only [List.foldl_cons, List.map_cons, List.flatten_cons]
    rw [secRules_fold l]
    simp [List.append_assoc]

/-- `getSecurityRules` as a join of per-index fragments. -/
theorem getSecurityRules_eq_join (ports : List Int) :
    getSecurityRules ports =
      (ports.enum.map fun ip =>
        (if ip.1 > 0 then gs ",\n" else []) ++ getSecurityRule ip.2 ip.1).flatten := by
  unfold getSecurityRules
  rw [secRules_fold]
  simp

/-- C4: the security rule emitted by `getSecurityRules` for the port at
zero-based index `i` is `getSecurityRule port i`, whose rendered priority
field is `200 + i`; the priority is `200` exactly at index `0` and is
strictly increasing with the index. -/
theorem securityRulePriority_eq_base_add_index (ports : List Int) (i : Nat)
    (h : i < ports.length) :
    (∃ pre suf,
        getSecurityRules ports = pre ++ getSecurityRule (ports.get ⟨i, h⟩) i ++ suf)
    ∧ getSecurityRule (ports.get ⟨i, h⟩) i =
        secRuleP1 ++ intRepr (ports.get ⟨i, h⟩) ++ secRuleP2 ++
          intRepr (ports.get ⟨i, h⟩) ++ secRuleP3 ++ intRepr (ports.get ⟨i, h⟩) ++
          secRuleP4 ++ natRepr (200 + i) ++ secRuleP5
    ∧ (i = 0 → 200 + i = 200)
    ∧ 200 + i < 200 + (i + 1) := by
  refine ⟨?_, rfl, by omega, by omega⟩
  have hlen : i < ports.enum.length := by simpa using h
  obtain ⟨pre, suf, hps⟩ := join_map_split
    (fun ip : Nat × Int =>
      (if ip.1 > 0 then gs ",\n" else []) ++ getSecurityRule ip.2 ip.1)
    ports.enum i hlen
  rw [getSecurityRules_eq_join, hps]
  have henum : ports.enum.get ⟨i, hlen⟩ = (i, ports.get ⟨i, h⟩) := by
    simp [List.get_eq_getElem]
  rw [henum]
  exact ⟨pre ++ (if i > 0 then gs ",\n" else []), suf, by simp [List.append_assoc]⟩

/-- Witness for C4 at the concrete port list `[80, 443]`, index `1`. -/
theorem securityRulePriority_witness :
    (∃ pre suf,
        getSecurityRules [80, 443] =
          pre ++ getSecurityRule (([80, 443] : List Int).get ⟨1, by decide⟩) 1 ++ suf)
    ∧ getSecurityRule (([80, 443] : List Int).get ⟨1, by decide⟩) 1 =
        secRuleP1 ++ intRepr (([80, 443] : List Int).get ⟨1, by decide⟩) ++ secRuleP2 ++
          intRepr (([80, 443] : List Int).get ⟨1, by decide⟩) ++ secRuleP3 ++
          intRepr (([80, 443] : List Int).get ⟨1, by decide⟩) ++
          secRuleP4 ++ natRepr (200 + 1) ++ secRuleP5
    ∧ (1 = 0 → 200 + 1 = 200)
    ∧ 200 + 1 < 200 + (1 + 1) :=
  securityRulePriority_eq_base_add_index [80, 443] 1 (by decide)

/-! ## C1: VNET address prefixes (missing agent-pool de-duplication) -/

/-- A cluster specification with two agent pools sharing one subnet that
differs from the master's subnet. -/
def propsC1 : Properties :=
  { orchestratorProfile := none
    certificateProfile := none
    aadProfile := none
    masterProfile :=
      { count := 1, dnsPrefix := gs "m", subnet := gs "10.0.0.0/24"
        firstConsecutiveStaticIP := gs "10.0.0.5", extensions := [] }
    agentPoolProfiles :=
      [ { name := gs "agentA", osType := OSType.linux, subnet := gs "10.0.1.0/24"
          count := 1, isAvailabilitySets := false, extensions := [] }
      , { name := gs "agentB", osType := OSType.linux, subnet := gs "10.0.1.0/24"
          count := 1, isAvailabilitySets := false, extensions := [] } ]
    extensionProfiles := [] }

/-- C1 (code evaluation at the failing input): with two agent pools sharing
the subnet `10.0.1.0/24` (≠ the master subnet), `getVNETAddressPrefixes`
emits an entry for *both* pools — the second pool sharing the subnet is not
de-duplicated, because the visited-subnet map is never extended inside the
loop.  The output differs from the claimed one-entry-per-distinct-subnet
fragment. -/
theorem vnetAddressPrefixes_dup_subnet_eval :
    getVNETAddressPrefixes propsC1 =
      gs "\"[variables('masterSubnet')]\",\n            \"[variables('agentASubnet')]\",\n            \"[variables('agentBSubnet')]\""
    ∧ getVNETAddressPrefixes propsC1 ≠
      gs "\"[variables('masterSubnet')]\",\n            \"[variables('agentASubnet')]\"" := by
  exact ⟨by decide, by decide⟩

/-! ## C5: Windows pod-CIDR subnets -/

/-- Spec-side count of Windows agent VMs across all pools. -/
def windowsVMCount : List AgentPoolProfile → Nat
  | [] => 0
  | ap :: rest =>
    (if ap.osType = OSType.windows then ap.count.toNat else 0) + windowsVMCount rest

/-- Spec-side total node count of master-excluded, non-Windows pools. -/
def nonWindowsNodeCount (pools : List AgentPoolProfile) : Int :=
  ((pools.filter fun ap => ap.osType ≠ OSType.windows).map fun ap => ap.count).sum

/-- The per-pool inner VM loop of `getKubernetesSubnets`, in closed form. -/
theorem kubSubnets_inner (n : Nat) :
    ∀ (buf : GoStr) (idx : Int),
      (List.range n).foldl
        (fun (st2 : GoStr × Int) _ =>
          (st2.1 ++ gs ",\n" ++ kubernetesSubnetString st2.2, st2.2 + 1))
        (buf, idx) =
      (buf ++ ((List.range n).map fun (k : Nat) =>
          gs ",\n" ++ kubernetesSubnetString (idx + k)).flatten, idx + n) := by
  induction n with
  | zero => intro buf idx; simp
  | succ n ih =>
    intro buf idx
    rw [List.range_succ, List.foldl_append, ih]
    simp only [List.foldl_cons, List.foldl_nil, List.range_succ, List.map_append,
      List.flatten_append, List.map_cons, List.map_nil, List.flatten_cons, List.flatten_nil]
    refine Prod.ext ?_ ?_
    · simp [List.append_assoc]
    · simp only
      push_cast
      ring

/-- Splitting the mapped fragment list of a `List.range` sum. -/
theorem range_add_map_frag (idx : Int) (c w : Nat) :
    ((List.range (c + w)).map fun (k : Nat) =>
        gs ",\n" ++ kubernetesSubnetString (idx + k)) =
      ((List.range c).map fun (k : Nat) =>
        gs ",\n" ++ kubernetesSubnetString (idx + k)) ++
      ((List.range w).map fun (k : Nat) =>
        gs ",\n" ++ kubernetesSubnetString (idx + (c : Int) + k)) := by
  rw [List.range_add, List.map_append, List.map_map]
  congr 1
  apply List.map_congr_left
  intro k _
  simp only [Function.comp_apply]
  congr 2
  push_cast
  ring

/-- The pool fold of `getKubernetesSubnets`, in closed form: one fragment per
Windows VM, with the CIDR counter incremented once per VM across pools. -/
theorem kubSubnets_outer :
    ∀ (pools : List AgentPoolProfile) (buf : GoStr) (idx : Int),
      (pools.foldl
        (fun (st : GoStr × Int) ap =>
          if ap.osType = OSType.windows then
            (List.range ap.count.toNat).foldl
              (fun (st2 : GoStr × Int) _ =>
                (st2.1 ++ gs ",\n" ++ kubernetesSubnetString st2.2, st2.2 + 1))
              st
          else st)
        (buf, idx)) =
      (buf ++ ((List.range (windowsVMCount pools)).map fun (k : Nat) =>
          gs ",\n" ++ kubernetesSubnetString (idx + k)).flatten,
        idx + windowsVMCount pools)
  | [], buf, idx => by simp [windowsVMCount]
  | ap :: rest, buf, idx => by
    by_cases hw : ap.osType = OSType.windows
    · have hcount : windowsVMCount (ap :: rest) =
          ap.count.toNat + windowsVMCount rest := by
        simp [windowsVMCount, hw]
      simp only [List.foldl_cons]
      rw [if_pos hw, kubSubnets_inner, kubSubnets_outer rest, hcount,
        range_add_map_frag]
      refine Prod.ext ?_ ?_
      · simp [List.flatten_append, List.append_assoc]
      · simp only
        push_cast
        ring
    · have hcount : windowsVMCount (ap :: rest) = windowsVMCount rest := by
        simp [windowsVMCount, hw]
      simp only [List.foldl_cons]
      rw [if_neg hw, kubSubnets_outer rest, hcount]

/-- The accumulator fold of `getKubernetesPodStartIndex`, in closed form. -/
theorem podStartIndex_fold :
    ∀ (pools : List AgentPoolProfile) (init : Int),
      pools.foldl
        (fun acc ap => if ap.osType ≠ OSType.windows then acc + ap.count else acc)
        init = init + nonWindowsNodeCount pools
  | [], init => by simp [nonWindowsNodeCount]
  | ap :: rest, init => by
    by_cases hw : ap.osType = OSType.windows
    · simp only [List.foldl_cons, hw, ne_eq, not_true_eq_false, if_neg,
        not_false_iff, ite_false]
      rw [podStartIndex_fold rest]
      simp [nonWindowsNodeCount, List.filter_cons, hw]
    · simp only [List.foldl_cons, ne_eq, hw, not_false_iff, ite_true]
      rw [podStartIndex_fold rest]
      have : nonWindowsNodeCount (ap :: rest) =
          ap.count + nonWindowsNodeCount rest := by
        simp [nonWindowsNodeCount, List.filter_cons, hw]
      rw [this]
      ring

/-- C5: `getKubernetesSubnets` emits one `10.244.k.0/24` fragment per
Windows agent VM, with the counter starting at
`getKubernetesPodStartIndex = 1 + master count + Σ non-Windows pool counts`
and incrementing by one per Windows VM across pools; the start index is
invariant under reordering of the agent pools. -/
theorem kubernetesSubnets_start_and_step (props props' : Properties)
    (hm : props'.masterProfile.count = props.masterProfile.count)
    (hp : List.Perm props'.agentPoolProfiles props.agentPoolProfiles) :
    getKubernetesSubnets props =
      ((List.range (windowsVMCount props.agentPoolProfiles)).map fun (k : Nat) =>
        gs ",\n" ++ kubernetesSubnetString (getKubernetesPodStartIndex props + k)).flatten
    ∧ getKubernetesPodStartIndex props =
        1 + props.masterProfile.count + nonWindowsNodeCount props.agentPoolProfiles
    ∧ getKubernetesPodStartIndex props' = getKubernetesPodStartIndex props := by
  refine ⟨?_, ?_, ?_⟩
  · unfold getKubernetesSubnets
    rw [kubSubnets_outer]
    simp
  · unfold getKubernetesPodStartIndex
    rw [podStartIndex_fold]
    ring
  · unfold getKubernetesPodStartIndex
    rw [podStartIndex_fold, podStartIndex_fold, hm]
    have : nonWindowsNodeCount props'.agentPoolProfiles =
        nonWindowsNodeCount props.agentPoolProfiles := by
      exact List.Perm.sum_eq (List.Perm.map _ (List.Perm.filter _ hp))
    rw [this]

/-- A fixture for C5: one master, one Linux pool of two VMs, one Windows pool
of one VM. -/
def propsC5 : Properties :=
  { orchestratorProfile := none
    certificateProfile := none
    aadProfile := none
    masterProfile :=
      { count := 1, dnsPrefix := gs "m", subnet := gs "10.0.0.0/24"
        firstConsecutiveStaticIP := gs "10.0.0.5", extensions := [] }
    agentPoolProfiles :=
      [ { name := gs "lin", osType := OSType.linux, subnet := gs "10.0.1.0/24"
          count := 2, isAvailabilitySets := false, extensions := [] }
      , { name := gs "win", osType := OSType.windows, subnet := gs "10.0.2.0/24"
          count := 1, isAvailabilitySets := false, extensions := [] } ]
    extensionProfiles := [] }

/-- `propsC5` with the two agent pools enumerated in the opposite order. -/
def propsC5r : Properties :=
  { propsC5 with
    agentPoolProfiles :=
      [ { name := gs "win", osType := OSType.windows, subnet := gs "10.0.2.0/24"
          count := 1, isAvailabilitySets := false, extensions := [] }
      , { name := gs "lin", osType := OSType.linux, subnet := gs "10.0.1.0/24"
          count := 2, isAvailabilitySets := false, extensions := [] } ] }

/-- Witness for C5: with 1 master and 2 non-Windows agents the Windows
pod-CIDR counter starts at 4 (`10.244.4.0/24`), also after reordering the
pools. -/
theorem kubernetesSubnets_witness :
    getKubernetesSubnets propsC5 =
      ((List.range (windowsVMCount propsC5.agentPoolProfiles)).map fun (k : Nat) =>
        gs ",\n" ++ kubernetesSubnetString (getKubernetesPodStartIndex propsC5 + k)).flatten
    ∧ getKubernetesPodStartIndex propsC5 =
        1 + propsC5.masterProfile.count + nonWindowsNodeCount propsC5.agentPoolProfiles
    ∧ getKubernetesPodStartIndex propsC5r = getKubernetesPodStartIndex propsC5 :=
  kubernetesSubnets_start_and_step propsC5 propsC5r (by decide) (by decide)

/-! ## Parameter & secret encoder (engine.go:111–145)

`paramsMap` is Go's `map[string]interface{}`; its values are arbitrary Go
values, including nested `paramsMap`s (`GoVal.map`) and `*KeyVaultRef`
pointers (`GoVal.ref`). -/

/-- `KeyVaultID`. -/
structure KeyVaultID where
  id : GoStr
  deriving DecidableEq

/-- `KeyVaultRef`. -/
structure KeyVaultRef where
  keyVault : KeyVaultID
  secretName : GoStr
  secretVersion : GoStr
  deriving DecidableEq

/-- A Go `interface{}` value as the parameter encoder meets it: a string, a
non-string scalar, a `*KeyVaultRef`, or a nested `paramsMap`. -/
inductive GoVal where
  | str : GoStr → GoVal
  | int : Int → GoVal
  | ref : KeyVaultRef → GoVal
  | map : List (GoStr × GoVal) → GoVal

/-- `paramsMap` (`map[string]interface{}`), as an association list. -/
abbrev paramsMap := List (GoStr × GoVal)

/-- `addValue` (engine.go:111): `m[k] = paramsMap{"value": v}`. -/
def addValue (m : paramsMap) (k : GoStr) (v : GoVal) : paramsMap :=
  mapSet m k (GoVal.map [(gs "value", v)])

/-- `addKeyvaultReference` (engine.go:117):
`m[k] = paramsMap{"reference": &KeyVaultRef{...}}`. -/
def addKeyvaultReference (m : paramsMap) (k : GoStr)
    (vaultID secretName secretVersion : GoStr) : paramsMap :=
  mapSet m k (GoVal.map
    [(gs "reference",
      GoVal.ref ⟨⟨vaultID⟩, secretName, secretVersion⟩)])

/-- Go's regexp `\s` (Perl class, ASCII): `[\t\n\f\r ]`. -/
def isGoSpace (c : Char) : Bool :=
  c = '\t' ∨ c = '\n' ∨ c = '\x0c' ∨ c = '\r' ∨ c = ' '

/-- All splits of a list, longest first part first — the order in which a
greedy quantifier's backtracking explores how much to consume. -/
def gsplits (l : List Char) : List (List Char × List Char) :=
  ((List.range (l.length + 1)).reverse).map fun i => (l.take i, l.drop i)

/-- The tail `([^/\s]+)(/(\S+))?$` of `keyvaultSecretPathRe`, with greedy
(leftmost-first) submatch semantics: the name takes as much as possible,
the optional version group is preferred present.  Returns
`(name, version)`, the version empty when the optional group is absent
(as Go's `FindStringSubmatch` reports an unmatched group). -/
def matchTailNameVer (l : List Char) : Option (GoStr × GoStr) :=
  (gsplits l).findSome? fun p =>
    if p.1 ≠ [] ∧ (∀ c ∈ p.1, isGoSpace c = false ∧ c ≠ '/') then
      match p.2 with
      | [] => some (p.1, [])
      | '/' :: v =>
        if v ≠ [] ∧ (∀ c ∈ v, isGoSpace c = false) then some (p.1, v) else none
      | _ => none
    else none

/-- `keyvaultSecretPathRe.FindStringSubmatch` (engine.go:33), for the anchored
pattern

`^(/subscriptions/\S+/resourceGroups/\S+/providers/Microsoft.KeyVault/vaults/\S+)/secrets/([^/\s]+)(/(\S+))?$`

with greedy (leftmost-first) submatch semantics, implemented by exploring
each `\S+`'s split longest-first with the whole remainder of the pattern as
the continuation.  The unescaped `.` of `Microsoft.KeyVault` matches any
character except `\n`.  Returns `(group 1, group 2, group 4)` — the vault
resource id, the secret name, and the version (empty when absent). -/
def keyvaultSecretPathMatch (l : GoStr) : Option (GoStr × GoStr × GoStr) :=
  if (gs "/subscriptions/").isPrefixOf l then
    (gsplits (l.drop (gs "/subscriptions/").length)).findSome? fun pA =>
      if pA.1 ≠ [] ∧ (∀ c ∈ pA.1, isGoSpace c = false) ∧
          (gs "/resourceGroups/").isPrefixOf pA.2 then
        (gsplits (pA.2.drop (gs "/resourceGroups/").length)).findSome? fun pB =>
          if pB.1 ≠ [] ∧ (∀ c ∈ pB.1, isGoSpace c = false) ∧
              (gs "/providers/Microsoft").isPrefixOf pB.2 then
            match pB.2.drop (gs "/providers/Microsoft").length with
            | [] => none
            | c :: r5 =>
              if c ≠ '\n' ∧ (gs "KeyVault/vaults/").isPrefixOf r5 then
                (gsplits (r5.drop (gs "KeyVault/vaults/").length)).findSome? fun pC =>
                  if pC.1 ≠ [] ∧ (∀ ch ∈ pC.1, isGoSpace ch = false) ∧
                      (gs "/secrets/").isPrefixOf pC.2 then
                    match matchTailNameVer (pC.2.drop (gs "/secrets/").length) with
                    | some (nm, ver) =>
                      some (gs "/subscriptions/" ++ pA.1 ++ gs "/resourceGroups/" ++
                        pB.1 ++ gs "/providers/Microsoft" ++ (c :: gs "KeyVault/vaults/") ++
                        pC.1, nm, ver)
                    | none => none
                  else none
              else none
          else none
      else none
  else none

/-- `addSecret` (engine.go:129): a non-string delegates to `addValue`; a
string matching the key-vault secret-path pattern becomes a key-vault
reference (vault id = group 1, name = group 2, version = group 4); any other
string becomes a value, base64-encoded when `encode` is set. -/
def addSecret (m : paramsMap) (k : GoStr) (v : GoVal) (encode : Bool) : paramsMap :=
  match v with
  | GoVal.str str =>
    match keyvaultSecretPathMatch str with
    | none =>
      if encode then addValue m k (GoVal.str (base64EncodeToString str))
      else addValue m k (GoVal.str str)
    | some (vaultID, secretName, secretVersion) =>
      addKeyvaultReference m k vaultID secretName secretVersion
  | _ => addValue m k v

/-! ## C3: `addSecret` and the key-vault secret-path pattern -/

/-- Looking up the key just assigned. -/
theorem lookupA_mapSet_self {α β : Type} [DecidableEq α] :
    ∀ (m : List (α × β)) (k : α) (v : β), lookupA (mapSet m k v) k = some v
  | [], k, v => by simp [mapSet, lookupA]
  | (k', v') :: rest, k, v => by
    by_cases hk : k = k'
    · simp [mapSet, lookupA, hk]
    · simp only [mapSet, if_neg hk, lookupA, if_neg hk]
      exact lookupA_mapSet_self rest k v

/-- Every element of `gsplits l` is a decomposition of `l`. -/
theorem gsplits_mem {l : List Char} {p : List Char × List Char}
    (hp : p ∈ gsplits l) : l = p.1 ++ p.2 := by
  unfold gsplits at hp
  obtain ⟨i, _, rfl⟩ := List.mem_map.mp hp
  exact (List.take_append_drop i l).symm

/-- A successful prefix test decomposes the list. -/
theorem eq_append_drop_of_isPrefixOf {p l : List Char}
    (h : p.isPrefixOf l = true) : l = p ++ l.drop p.length := by
  obtain ⟨t, rfl⟩ := List.isPrefixOf_iff_prefix.mp h
  rw [List.drop_left]

/-- Soundness of the tail matcher: a reported (name, version) pair really
decomposes the input, the name is nonempty and slash- and space-free, and
the version, when present, is nonempty and space-free. -/
theorem matchTailNameVer_sound {l nm ver : GoStr}
    (h : matchTailNameVer l = some (nm, ver)) :
    l = nm ++ (if ver = [] then [] else '/' :: ver)
    ∧ nm ≠ [] ∧ (∀ c ∈ nm, isGoSpace c = false ∧ c ≠ '/')
    ∧ (ver = [] ∨ (ver ≠ [] ∧ ∀ c ∈ ver, isGoSpace c = false)) := by
  unfold matchTailNameVer at h
  obtain ⟨p, hp, hf⟩ := List.exists_of_findSome?_eq_some h
  have hl : l = p.1 ++ p.2 := gsplits_mem hp
  split at hf
  case isTrue hc =>
    split at hf
    case h_1 heq =>
      simp only [Option.some.injEq, Prod.mk.injEq] at hf
      obtain ⟨rfl, rfl⟩ := hf
      refine ⟨?_, hc.1, hc.2, Or.inl rfl⟩
      rw [hl, heq, if_pos rfl]
    case h_2 v heq =>
      split at hf
      case isTrue hv =>
        simp only [Option.some.injEq, Prod.mk.injEq] at hf
        obtain ⟨rfl, rfl⟩ := hf
        refine ⟨?_, hc.1, hc.2, Or.inr hv⟩
        rw [hl, heq, if_neg hv.1]
      case isFalse => exact Option.noConfusion hf
    case h_3 => exact Option.noConfusion hf
  case isFalse => exact Option.noConfusion hf

/-- Soundness of the full pattern matcher: a reported
(vault id, name, version) triple decomposes the input as
`vid ++ "/secrets/" ++ name [++ "/" ++ version]` — the vault id is exactly
everything before the matched `/secrets/` — with `vid` starting in
`/subscriptions/`, the name nonempty, slash- and space-free, and the
version, when present, nonempty and space-free. -/
theorem keyvaultSecretPathMatch_sound {l vid nm ver : GoStr}
    (h : keyvaultSecretPathMatch l = some (vid, nm, ver)) :
    l = vid ++ gs "/secrets/" ++ nm ++ (if ver = [] then [] else '/' :: ver)
    ∧ (gs "/subscriptions/").isPrefixOf vid = true
    ∧ nm ≠ [] ∧ (∀ c ∈ nm, isGoSpace c = false ∧ c ≠ '/')
    ∧ (ver = [] ∨ (ver ≠ [] ∧ ∀ c ∈ ver, isGoSpace c = false)) := by
  unfold keyvaultSecretPathMatch at h
  split at h
  case isFalse => exact Option.noConfusion h
  case isTrue h1 =>
  obtain ⟨pA, hpA, hA⟩ := List.exists_of_findSome?_eq_some h
  have hlA : l.drop (gs "/subscriptions/").length = pA.1 ++ pA.2 := gsplits_mem hpA
  split at hA
  case isFalse => exact Option.noConfusion hA
  case isTrue hcA =>
  obtain ⟨pB, hpB, hB⟩ := List.exists_of_findSome?_eq_some hA
  have hlB : pA.2.drop (gs "/resourceGroups/").length = pB.1 ++ pB.2 :=
    gsplits_mem hpB
  split at hB
  case isFalse => exact Option.noConfusion hB
  case isTrue hcB =>
  split at hB
  case h_1 => exact Option.noConfusion hB
  case h_2 c r5 hr4 =>
  split at hB
  case isFalse => exact Option.noConfusion hB
  case isTrue hcC =>
  obtain ⟨pC, hpC, hC⟩ := List.exists_of_findSome?_eq_some hB
  have hlC : r5.drop (gs "KeyVault/vaults/").length = pC.1 ++ pC.2 :=
    gsplits_mem hpC
  split at hC
  case isFalse => exact Option.noConfusion hC
  case isTrue hcD =>
  split at hC
  case h_2 => exact Option.noConfusion hC
  case h_1 nm' ver' htail =>
  simp only [Option.some.injEq, Prod.mk.injEq] at hC
  obtain ⟨hvid, rfl, rfl⟩ := hC
  obtain ⟨htl, htnm, htc, htver⟩ := matchTailNameVer_sound htail
  refine ⟨?_, ?_, htnm, htc, htver⟩
  · have e1 : l = gs "/subscriptions/" ++ (pA.1 ++ pA.2) := by
      rw [← hlA]
      exact eq_append_drop_of_isPrefixOf h1
    have e2 : pA.2 = gs "/resourceGroups/" ++ (pB.1 ++ pB.2) := by
      rw [← hlB]
      exact eq_append_drop_of_isPrefixOf hcA.2.2
    have e3 : pB.2 = gs "/providers/Microsoft" ++ (c :: r5) := by
      rw [← hr4]
      exact eq_append_drop_of_isPrefixOf hcB.2.2
    have e4 : r5 = gs "KeyVault/vaults/" ++ (pC.1 ++ pC.2) := by
      rw [← hlC]
      exact eq_append_drop_of_isPrefixOf hcC.2
    have e5 : pC.2 = gs "/secrets/" ++
        (nm' ++ (if ver' = [] then [] else '/' :: ver')) := by
      rw [← htl]
      exact eq_append_drop_of_isPrefixOf hcD.2.2
    rw [e1, e2, e3, e4, e5, ← hvid]
    simp [List.append_assoc]
  · rw [← hvid]
    refine List.isPrefixOf_iff_prefix.mpr ?_
    exact ⟨pA.1 ++ gs "/resourceGroups/" ++ pB.1 ++ gs "/providers/Microsoft" ++
      (c :: gs "KeyVault/vaults/") ++ pC.1, by simp [List.append_assoc]⟩

/-- C3: `addSecret` on a string input.  When the string matches the
key-vault secret-path pattern the entry becomes a secret-reference wrapper
whose vault id is everything before the matched `/secrets/`, whose secret
name is the path component after it, and whose version is the trailing
component when present (empty otherwise); when it does not match, the entry
becomes a value wrapper holding the base64 encoding of the string when
`encode = true` and the string itself when `encode = false`. -/
theorem addSecret_secret_reference_or_value (m : paramsMap) (k s : GoStr)
    (encode : Bool) :
    (∀ vid nm ver, keyvaultSecretPathMatch s = some (vid, nm, ver) →
      lookupA (addSecret m k (GoVal.str s) encode) k =
        some (GoVal.map [(gs "reference", GoVal.ref ⟨⟨vid⟩, nm, ver⟩)])
      ∧ s = vid ++ gs "/secrets/" ++ nm ++ (if ver = [] then [] else '/' :: ver)
      ∧ (gs "/subscriptions/").isPrefixOf vid = true
      ∧ nm ≠ [] ∧ (∀ c ∈ nm, isGoSpace c = false ∧ c ≠ '/'))
    ∧ (keyvaultSecretPathMatch s = none →
      lookupA (addSecret m k (GoVal.str s) encode) k =
        some (GoVal.map [(gs "value",
          GoVal.str (if encode then base64EncodeToString s else s))])) := by
  constructor
  · intro vid nm ver hmatch
    have hred : addSecret m k (GoVal.str s) encode =
        addKeyvaultReference m k vid nm ver := by
      simp [addSecret, hmatch]
    obtain ⟨hdec, hpre, hnm, hcs, _⟩ := keyvaultSecretPathMatch_sound hmatch
    exact ⟨by rw [hred, addKeyvaultReference, lookupA_mapSet_self],
      hdec, hpre, hnm, hcs⟩
  · intro hnone
    have hred : addSecret m k (GoVal.str s) encode =
        (if encode then addValue m k (GoVal.str (base64EncodeToString s))
         else addValue m k (GoVal.str s)) := by
      simp [addSecret, hnone]
    cases encode
    · simp only [Bool.false_eq_true, if_false] at hred ⊢
      rw [hred, addValue, lookupA_mapSet_self]
    · simp only [if_true] at hred ⊢
      rw [hred, addValue, lookupA_mapSet_self]

/-- Witness for C3 at the spec's example path
`/subscriptions/S/resourceGroups/G/providers/Microsoft.KeyVault/vaults/V/secrets/NAME/VERSION`. -/
theorem addSecret_witness :
    keyvaultSecretPathMatch
        (gs "/subscriptions/sub1/resourceGroups/rg1/providers/Microsoft.KeyVault/vaults/kv1/secrets/secret1/ver1") =
      some (gs "/subscriptions/sub1/resourceGroups/rg1/providers/Microsoft.KeyVault/vaults/kv1",
        gs "secret1", gs "ver1")
    ∧ lookupA
        (addSecret [] (gs "p")
          (GoVal.str
            (gs "/subscriptions/sub1/resourceGroups/rg1/providers/Microsoft.KeyVault/vaults/kv1/secrets/secret1/ver1"))
          true)
        (gs "p") =
      some (GoVal.map
        [(gs "reference",
          GoVal.ref
            ⟨⟨gs "/subscriptions/sub1/resourceGroups/rg1/providers/Microsoft.KeyVault/vaults/kv1"⟩,
              gs "secret1", gs "ver1"⟩)]) := by
  have hmatch : keyvaultSecretPathMatch
      (gs "/subscriptions/sub1/resourceGroups/rg1/providers/Microsoft.KeyVault/vaults/kv1/secrets/secret1/ver1") =
      some (gs "/subscriptions/sub1/resourceGroups/rg1/providers/Microsoft.KeyVault/vaults/kv1",
        gs "secret1", gs "ver1") := by decide
  exact ⟨hmatch,
    ((addSecret_secret_reference_or_value [] (gs "p")
      (gs "/subscriptions/sub1/resourceGroups/rg1/providers/Microsoft.KeyVault/vaults/kv1/secrets/secret1/ver1")
      true).1 _ _ _ hmatch).1⟩

/-! ## C9: the params-map invariant -/

/-- An entry of the outer params map is well-formed when it is an inner map
with exactly one of the keys `value` / `reference` set. -/
def goodParamsEntry : GoVal → Bool
  | GoVal.map e => (lookupA e (gs "value")).isSome != (lookupA e (gs "reference")).isSome
  | _ => false

/-- The spec invariant on a params map: every entry has exactly one of
{value, reference} set. -/
def paramsMapInv (m : paramsMap) : Bool :=
  m.all fun p => goodParamsEntry p.2

/-- A parameter-encoder operation, for stating closure of the invariant
under arbitrary operation sequences. -/
inductive ParamOp where
  | value : GoStr → GoVal → ParamOp
  | keyvaultReference : GoStr → GoStr → GoStr → GoStr → ParamOp
  | secret : GoStr → GoVal → Bool → ParamOp

/-- Apply one encoder operation. -/
def applyParamOp (m : paramsMap) : ParamOp → paramsMap
  | ParamOp.value k v => addValue m k v
  | ParamOp.keyvaultReference k vid nm ver => addKeyvaultReference m k vid nm ver
  | ParamOp.secret k v e => addSecret m k v e

/-- `mapSet` with a good entry preserves the invariant. -/
theorem paramsMapInv_mapSet :
    ∀ (m : paramsMap) (k : GoStr) (v : GoVal),
      paramsMapInv m = true → goodParamsEntry v = true →
      paramsMapInv (mapSet m k v) = true
  | [], k, v, _, hv => by simp [paramsMapInv, mapSet, hv]
  | (k', v') :: rest, k, v, hm, hv => by
    simp only [paramsMapInv, List.all_cons, Bool.and_eq_true] at hm
    by_cases hk : k = k'
    · simp only [mapSet, if_pos hk, paramsMapInv, List.all_cons, Bool.and_eq_true]
      exact ⟨hv, hm.2⟩
    · simp only [mapSet, if_neg hk, paramsMapInv, List.all_cons, Bool.and_eq_true]
      exact ⟨hm.1, paramsMapInv_mapSet rest k v hm.2 hv⟩

/-- The entry written by `addValue` is good. -/
theorem goodParamsEntry_value (v : GoVal) :
    goodParamsEntry (GoVal.map [(gs "value", v)]) = true := by
  have h : (gs "reference" = gs "value") = False := by simp [gs]
  simp [goodParamsEntry, lookupA, h]

/-- The entry written by `addKeyvaultReference` is good. -/
theorem goodParamsEntry_reference (r : KeyVaultRef) :
    goodParamsEntry (GoVal.map [(gs "reference", GoVal.ref r)]) = true := by
  have h : (gs "value" = gs "reference") = False := by simp [gs]
  simp [goodParamsEntry, lookupA, h]

/-- `addSecret` preserves the invariant (it delegates to `addValue` or
`addKeyvaultReference`). -/
theorem paramsMapInv_addSecret (m : paramsMap) (k : GoStr) (v : GoVal)
    (encode : Bool) (hm : paramsMapInv m = true) :
    paramsMapInv (addSecret m k v encode) = true := by
  cases v with
  | str s =>
    cases hmatch : keyvaultSecretPathMatch s with
    | none =>
      have hred : addSecret m k (GoVal.str s) encode =
          (if encode then addValue m k (GoVal.str (base64EncodeToString s))
           else addValue m k (GoVal.str s)) := by
        simp [addSecret, hmatch]
      rw [hred]
      cases encode
      · simpa using paramsMapInv_mapSet m k _ hm (goodParamsEntry_value _)
      · simpa using paramsMapInv_mapSet m k _ hm (goodParamsEntry_value _)
    | some t =>
      obtain ⟨vid, nm, ver⟩ := t
      have hred : addSecret m k (GoVal.str s) encode =
          addKeyvaultReference m k vid nm ver := by
        simp [addSecret, hmatch]
      rw [hred]
      exact paramsMapInv_mapSet m k _ hm (goodParamsEntry_reference _)
  | int n => exact paramsMapInv_mapSet m k _ hm (goodParamsEntry_value _)
  | ref r => exact paramsMapInv_mapSet m k _ hm (goodParamsEntry_value _)
  | map e => exact paramsMapInv_mapSet m k _ hm (goodParamsEntry_value _)

/-- Every operation list preserves the invariant. -/
theorem paramsMapInv_foldl :
    ∀ (ops : List ParamOp) (m : paramsMap), paramsMapInv m = true →
      paramsMapInv (ops.foldl applyParamOp m) = true
  | [], _, hm => hm
  | op :: ops, m, hm => by
    have hstep : paramsMapInv (applyParamOp m op) = true := by
      cases op with
      | value k v => exact paramsMapInv_mapSet m k _ hm (goodParamsEntry_value _)
      | keyvaultReference k vid nm ver =>
        exact paramsMapInv_mapSet m k _ hm (goodParamsEntry_reference _)
      | secret k v e => exact paramsMapInv_addSecret m k v e hm
    exact paramsMapInv_foldl ops _ hstep

/-- C9: `addValue`, `addKeyvaultReference` and `addSecret` each preserve
the exactly-one-of-{value, reference} invariant, and hence no sequence of
these operations, starting from a map satisfying it, produces an entry with
both or neither field set. -/
theorem paramsMap_exactly_one_of_value_reference (m : paramsMap) (k : GoStr)
    (v : GoVal) (vaultID secretName secretVersion : GoStr) (encode : Bool)
    (hm : paramsMapInv m = true) :
    paramsMapInv (addValue m k v) = true
    ∧ paramsMapInv (addKeyvaultReference m k vaultID secretName secretVersion) = true
    ∧ paramsMapInv (addSecret m k v encode) = true
    ∧ (∀ ops : List ParamOp, paramsMapInv (ops.foldl applyParamOp m) = true) :=
  ⟨paramsMapInv_mapSet m k _ hm (goodParamsEntry_value _),
   paramsMapInv_mapSet m k _ hm (goodParamsEntry_reference _),
   paramsMapInv_addSecret m k v encode hm,
   fun ops => paramsMapInv_foldl ops m hm⟩

/-- Witness for C9 at a concrete map and concrete operations. -/
theorem paramsMapInv_witness :
    paramsMapInv (addValue [] (gs "a") (GoVal.int 1)) = true
    ∧ paramsMapInv (addKeyvaultReference [] (gs "a") (gs "v") (gs "n") (gs "s")) = true
    ∧ paramsMapInv (addSecret [] (gs "a") (GoVal.int 1) true) = true
    ∧ (∀ ops : List ParamOp, paramsMapInv (ops.foldl applyParamOp []) = true) :=
  paramsMap_exactly_one_of_value_reference [] (gs "a") (GoVal.int 1)
    (gs "v") (gs "n") (gs "s") true (by decide)

/-! ## Extension catalog lookup and script commands (engine.go:182–219) -/

/-- Case-fold of one ASCII character. -/
def foldChar (c : Char) : Char :=
  if 'A' ≤ c ∧ c ≤ 'Z' then Char.ofNat (c.toNat + 32) else c

/-- `strings.EqualFold` (Unicode simple case folding), modelled for ASCII
strings — the only ones the engine's extension names use. -/
def equalFold (a b : GoStr) : Bool :=
  a.map foldChar == b.map foldChar

/-- `getExtensionURL` (engine.go:752). -/
def getExtensionURL (rootURL extensionName version fileName query : GoStr) : GoStr :=
  rootURL ++ gs "extensions" ++ gs "/" ++ extensionName ++ gs "/" ++ version ++
    gs "/" ++ fileName ++ (if query ≠ [] then gs "?" ++ query else [])

/-- `makeExtensionScriptCommands` (engine.go:182): looks the referenced
extension up in the catalog case-insensitively (`strings.EqualFold`), panics
(modelled as `Except.error`) when absent, and renders the Linux provisioning
command lines.  (`copyIndex` is accepted and unused, as in the source.) -/
def makeExtensionScriptCommands (extension : Extension)
    (extensionProfiles : List ExtensionProfile) (copyIndex : GoStr) :
    Except GoStr GoStr :=
  match extensionProfiles.find? fun eP => equalFold eP.name extension.name with
  | none =>
    Except.error (extension.name ++
      gs " extension referenced was not found in the extension profile")
  | some extensionProfile =>
    Except.ok
      (gs "- sudo /usr/bin/curl --retry 5 --retry-delay 10 --retry-max-time 30 -o " ++
        (gs "/opt/azure/containers/extensions/" ++ extensionProfile.name ++ gs "/" ++
          extensionProfile.script) ++
        gs " --create-dirs \"" ++
        getExtensionURL extensionProfile.rootURL extensionProfile.name
          extensionProfile.version extensionProfile.script extensionProfile.urlQuery ++
        gs "\" \n- sudo /bin/chmod 744 " ++
        (gs "/opt/azure/containers/extensions/" ++ extensionProfile.name ++ gs "/" ++
          extensionProfile.script) ++
        gs " \n- sudo " ++
        (gs "/opt/azure/containers/extensions/" ++ extensionProfile.name ++ gs "/" ++
          extensionProfile.script) ++
        gs " '," ++
        (gs "parameters('" ++ extensionProfile.name ++ gs "Parameters')") ++
        gs ",' > /var/log/" ++ extensionProfile.name ++ gs "-output.log")

/-- `makeWindowsExtensionScriptCommands` (engine.go:202): the Windows variant
of the same case-insensitive catalog lookup and command rendering. -/
def makeWindowsExtensionScriptCommands (extension : Extension)
    (extensionProfiles : List ExtensionProfile) (copyIndex : GoStr) :
    Except GoStr GoStr :=
  match extensionProfiles.find? fun eP => equalFold eP.name extension.name with
  | none =>
    Except.error (extension.name ++
      gs " extension referenced was not found in the extension profile")
  | some extensionProfile =>
    Except.ok
      (gs "New-Item -ItemType Directory -Force -Path \"" ++
        (gs "$env:SystemDrive:/AzureData/extensions/" ++ extensionProfile.name) ++
        gs "\" ; Invoke-WebRequest -Uri \"" ++
        getExtensionURL extensionProfile.rootURL extensionProfile.name
          extensionProfile.version extensionProfile.script extensionProfile.urlQuery ++
        gs "\" -OutFile \"" ++
        (gs "$env:SystemDrive:/AzureData/extensions/" ++ extensionProfile.name ++
          gs "/" ++ extensionProfile.script) ++
        gs "\" ; powershell \"" ++
        (gs "$env:SystemDrive:/AzureData/extensions/" ++ extensionProfile.name ++
          gs "/" ++ extensionProfile.script) ++
        gs " " ++ gs "$preprovisionExtensionParams" ++ gs "\"\n")

/-- `validateProfileOptedForExtension` (engine.go:682): first extension whose
name equals the declared extension name exactly (case-sensitive `==`);
returns the opt-in flag and that extension's single-or-all mode. -/
def validateProfileOptedForExtension (extensionName : GoStr) :
    List Extension → Bool × GoStr
  | [] => (false, [])
  | extension :: rest =>
    if extensionName = extension.name then (true, extension.singleOrAll)
    else validateProfileOptedForExtension extensionName rest

/-! ## Extension resolver (engine.go:583–768)

HTTP is modelled by passing the remote world as a function from request URL
to result. -/

/-- The outcome of `http.Get`: a transport error, or a response with status
code, status text and body. -/
inductive HttpResult where
  | transportError : GoStr → HttpResult
  | response : Int → GoStr → GoStr → HttpResult

/-- Decidable equality of modelled fallible results, for concrete
evaluation. -/
instance {α β : Type} [DecidableEq α] [DecidableEq β] :
    DecidableEq (Except α β) := fun a b =>
  match a, b with
  | Except.error x, Except.error y =>
    if h : x = y then isTrue (by rw [h]) else isFalse (by simp [h])
  | Except.ok x, Except.ok y =>
    if h : x = y then isTrue (by rw [h]) else isFalse (by simp [h])
  | Except.error _, Except.ok _ => isFalse (by simp)
  | Except.ok _, Except.error _ => isFalse (by simp)

/-- `getExtensionResource` (engine.go:730): builds the URL, GETs it, fails on
transport errors and non-200 statuses with the extension name, version, file
name and URL attached.  (A body-read failure is subsumed under the transport
error case.) -/
def getExtensionResource (httpGet : GoStr → HttpResult)
    (rootURL extensionName version fileName query : GoStr) : Except GoStr GoStr :=
  match httpGet (getExtensionURL rootURL extensionName version fileName query) with
  | HttpResult.transportError e =>
    Except.error (gs "Unable to GET extension resource for extension: " ++
      extensionName ++ gs " with version " ++ version ++ gs " with filename " ++
      fileName ++ gs " at URL: " ++
      getExtensionURL rootURL extensionName version fileName query ++ gs ": " ++ e)
  | HttpResult.response status statusText body =>
    if status ≠ 200 then
      Except.error (gs "Unable to GET extension resource for extension: " ++
        extensionName ++ gs " with version " ++ version ++ gs " with filename " ++
        fileName ++ gs " at URL: " ++
        getExtensionURL rootURL extensionName version fileName query ++
        gs " StatusCode: " ++ intRepr status ++ gs ": Status: " ++ statusText)
    else Except.ok body

/-- Whitespace skipping for the JSON list parser. -/
def skipWs : GoStr → GoStr
  | [] => []
  | c :: r =>
    if c = ' ' ∨ c = '\t' ∨ c = '\n' ∨ c = '\r' then skipWs r else c :: r

/-- Body of a JSON string after its opening quote: the content and the rest
after the closing quote.  Escape sequences are simplified to their raw second
character — the engine's behaviour never depends on a parsed value, only on
parse success. -/
def jsonStringBody : GoStr → Option (GoStr × GoStr)
  | [] => none
  | '"' :: r => some ([], r)
  | '\\' :: c :: r => (jsonStringBody r).map fun p => (c :: p.1, p.2)
  | c :: r => (jsonStringBody r).map fun p => (c :: p.1, p.2)

/-- Elements of a JSON array of strings, after the opening `[` and at least
one element. -/
def jsonStringListElems (fuel : Nat) (l : GoStr) (acc : List GoStr) :
    Except GoStr (List GoStr) :=
  match fuel with
  | 0 => Except.error (gs "json: input too long")
  | fuel + 1 =>
    match skipWs l with
    | '"' :: r =>
      match jsonStringBody r with
      | none => Except.error (gs "json: unterminated string")
      | some (s, rest) =>
        match skipWs rest with
        | ',' :: r2 => jsonStringListElems fuel r2 (acc ++ [s])
        | ']' :: r2 =>
          if skipWs r2 = [] then Except.ok (acc ++ [s])
          else Except.error (gs "json: trailing data")
        | _ => Except.error (gs "json: expected , or ]")
    | _ => Except.error (gs "json: expected string")

/-- `json.Unmarshal` into `[]string` (the standard library is outside the
provided sources), modelled as a small JSON string-array parser: the claims
depend only on whether decoding succeeds. -/
def jsonUnmarshalStringList (s : GoStr) : Except GoStr (List GoStr) :=
  match skipWs s with
  | '[' :: r =>
    match skipWs r with
    | ']' :: r2 =>
      if skipWs r2 = [] then Except.ok []
      else Except.error (gs "json: trailing data")
    | r2 => jsonStringListElems (r2.length + 1) r2 []
  | _ => Except.error (gs "json: expected array")

/-- `stringInSlice` (engine.go:761). -/
def stringInSlice (a : GoStr) : List GoStr → Bool
  | [] => false
  | b :: rest => if b = a then true else stringInSlice a rest

/-- `orchestratorSupportsExtension` (engine.go:711): fetches and decodes
`supported-orchestrators.json` and checks membership of the orchestrator
type; mirrors Go's `(bool, error)` return. -/
def orchestratorSupportsExtension (httpGet : GoStr → HttpResult)
    (rootURL orchestrator extensionName version query : GoStr) :
    Bool × Option GoStr :=
  match getExtensionResource httpGet rootURL extensionName version
      (gs "supported-orchestrators.json") query with
  | Except.error e => (false, some e)
  | Except.ok orchestratorBytes =>
    match jsonUnmarshalStringList orchestratorBytes with
    | Except.error _ =>
      (false, some (gs "Unable to parse supported-orchestrators.json for Extension " ++
        extensionName ++ gs " Version " ++ version))
    | Except.ok supportedOrchestrators =>
      if stringInSlice orchestrator supportedOrchestrators = false then
        (false, some (gs "Orchestrator: " ++ orchestrator ++
          gs " not in list of supported orchestrators for Extension: " ++
          extensionName ++ gs " Version " ++ version))
      else (true, none)

/-- `getLinkedTemplateTextForURL` (engine.go:697): validates orchestrator
support then fetches `template-link.json`.  (`errors.Wrap(nil, msg)` is `nil`
in Go, so an unsupported verdict with no underlying error — impossible for
`orchestratorSupportsExtension` — would return success with empty text; the
model mirrors that.) -/
def getLinkedTemplateTextForURL (httpGet : GoStr → HttpResult)
    (rootURL orchestrator extensionName version query : GoStr) :
    Except GoStr GoStr :=
  match orchestratorSupportsExtension httpGet rootURL orchestrator extensionName
      version query with
  | (supportsExtension, err) =>
    if supportsExtension = false then
      match err with
      | some e =>
        Except.error (gs "Extension not supported for orchestrator" ++ gs ": " ++ e)
      | none => Except.ok []
    else
      match getExtensionResource httpGet rootURL extensionName version
          (gs "template-link.json") query with
      | Except.error e => Except.error e
      | Except.ok templateLinkBytes => Except.ok templateLinkBytes

/-- `strings.Contains(s, sub)`. -/
def goContains : GoStr → GoStr → Bool
  | s, sub =>
    if sub.isPrefixOf s then true
    else
      match s with
      | [] => false
      | _ :: rest => goContains rest sub

/-- `strconv.Atoi` (base-10 `ParseInt` into a 64-bit int): optional sign,
one or more decimal digits, 64-bit range check. -/
def goAtoi (s : GoStr) : Option Int :=
  match s with
  | [] => none
  | _ =>
    let core := match s with
      | '-' :: r => (true, r)
      | '+' :: r => (false, r)
      | r => (false, r)
    if core.2 = [] ∨ ¬ (∀ c ∈ core.2, c.isDigit = true) then none
    else
      let n : Nat := core.2.foldl (fun a c => a * 10 + (c.toNat - 48)) 0
      let v : Int := if core.1 then -(n : Int) else (n : Int)
      if v < -(2 ^ 63) ∨ v > 2 ^ 63 - 1 then none else some v

/-- `internalGetPoolLinkedTemplateText` (engine.go:658): resolves the linked
template text and substitutes target VM type, parameter reference, root URL,
VM-name prefix, loop count (with surrounding quotes exactly when the loop
count parses as an integer) and loop offset. -/
def internalGetPoolLinkedTemplateText (httpGet : GoStr → HttpResult)
    (extTargetVMNamePrefix orchestratorType loopCount loopOffset : GoStr)
    (extensionProfile : ExtensionProfile) : Except GoStr GoStr :=
  match getLinkedTemplateTextForURL httpGet extensionProfile.rootURL
      orchestratorType extensionProfile.name extensionProfile.version
      extensionProfile.urlQuery with
  | Except.error e => Except.error e
  | Except.ok dta0 =>
    let dta1 :=
      if goContains extTargetVMNamePrefix (gs "master") then
        replaceAll dta0 (gs "EXTENSION_TARGET_VM_TYPE") (gs "master")
      else
        replaceAll dta0 (gs "EXTENSION_TARGET_VM_TYPE") (gs "agent")
    let dta2 := replaceAll dta1 (gs "EXTENSION_PARAMETERS_REPLACE")
      (gs "[parameters('" ++ extensionProfile.name ++ gs "Parameters')]")
    let dta3 := replaceAll dta2 (gs "EXTENSION_URL_REPLACE") extensionProfile.rootURL
    let dta4 := replaceAll dta3 (gs "EXTENSION_TARGET_VM_NAME_PREFIX")
      extTargetVMNamePrefix
    let dta5 :=
      if (goAtoi loopCount).isSome then
        replaceAll dta4 (gs "\"EXTENSION_LOOP_COUNT\"") loopCount
      else
        replaceAll dta4 (gs "EXTENSION_LOOP_COUNT") loopCount
    Except.ok (replaceAll dta5 (gs "EXTENSION_LOOP_OFFSET") loopOffset)

/-- `getMasterLinkedTemplateText` (engine.go:623). -/
def getMasterLinkedTemplateText (httpGet : GoStr → HttpResult)
    (masterProfile : MasterProfile) (orchestratorType : GoStr)
    (extensionProfile : ExtensionProfile) (singleOrAll : GoStr) :
    Except GoStr GoStr :=
  let extTargetVMNamePrefix := gs "variables('masterVMNamePrefix')"
  let loopCount := gs "[sub(variables('masterCount'), variables('masterOffset'))]"
  let loopOffset := gs "variables('masterOffset')"
  let loopCount := if equalFold singleOrAll (gs "single") then gs "1" else loopCount
  internalGetPoolLinkedTemplateText httpGet extTargetVMNamePrefix orchestratorType
    loopCount loopOffset extensionProfile

/-- `getAgentPoolLinkedTemplateText` (engine.go:637). -/
def getAgentPoolLinkedTemplateText (httpGet : GoStr → HttpResult)
    (agentPoolProfile : AgentPoolProfile) (orchestratorType : GoStr)
    (extensionProfile : ExtensionProfile) (singleOrAll : GoStr) :
    Except GoStr GoStr :=
  let extTargetVMNamePrefix :=
    gs "variables('" ++ agentPoolProfile.name ++ gs "VMNamePrefix')"
  let loopCount := gs "[variables('" ++ agentPoolProfile.name ++ gs "Count'))]"
  let loopOffset : GoStr := []
  let lc2 :=
    if agentPoolProfile.isAvailabilitySets then
      gs "[sub(variables('" ++ agentPoolProfile.name ++ gs "Count'), variables('" ++
        agentPoolProfile.name ++ gs "Offset'))]"
    else loopCount
  let lo2 :=
    if agentPoolProfile.isAvailabilitySets then
      gs "variables('" ++ agentPoolProfile.name ++ gs "Offset')"
    else loopOffset
  let lc3 := if equalFold singleOrAll (gs "single") then gs "1" else lc2
  internalGetPoolLinkedTemplateText httpGet extTargetVMNamePrefix orchestratorType
    lc3 lo2 extensionProfile

/-- `properties.OrchestratorProfile.OrchestratorType`, dereferenced
unconditionally in the source (a nil profile would panic; modelled as the
empty string). -/
def propertiesOrchestratorType (properties : Properties) : GoStr :=
  match properties.orchestratorProfile with
  | some op => op.orchestratorType
  | none => []

/-- Whether an `Except` is an error. -/
def isErr {α β : Type} : Except α β → Bool
  | Except.error _ => true
  | Except.ok _ => false

/-- The agent-pool loop inside `getLinkedTemplatesForExtensions` for one
extension profile: each opted-in pool contributes `,` + its fragment; the
first failure aborts (the Go code returns `""` from the whole function). -/
def linkedTemplatesForPools (httpGet : GoStr → HttpResult)
    (orchestratorType : GoStr) (extensionProfile : ExtensionProfile) :
    List AgentPoolProfile → Except GoStr GoStr
  | [] => Except.ok []
  | agentPoolProfile :: rest =>
    if (validateProfileOptedForExtension extensionProfile.name
        agentPoolProfile.extensions).1 then
      match getAgentPoolLinkedTemplateText httpGet agentPoolProfile
          orchestratorType extensionProfile
          (validateProfileOptedForExtension extensionProfile.name
            agentPoolProfile.extensions).2 with
      | Except.error e => Except.error e
      | Except.ok dta =>
        match linkedTemplatesForPools httpGet orchestratorType extensionProfile
            rest with
        | Except.error e => Except.error e
        | Except.ok r => Except.ok (gs "," ++ dta ++ r)
    else linkedTemplatesForPools httpGet orchestratorType extensionProfile rest

/-- The master part of one extension's linked-template fragment. -/
def linkedTemplateMasterPart (httpGet : GoStr → HttpResult)
    (properties : Properties) (extensionProfile : ExtensionProfile) :
    Except GoStr GoStr :=
  if (validateProfileOptedForExtension extensionProfile.name
      properties.masterProfile.extensions).1 then
    match getMasterLinkedTemplateText httpGet properties.masterProfile
        (propertiesOrchestratorType properties) extensionProfile
        (validateProfileOptedForExtension extensionProfile.name
          properties.masterProfile.extensions).2 with
    | Except.error e => Except.error e
    | Except.ok dta => Except.ok (gs "," ++ dta)
  else Except.ok []

/-- The per-extension body of `getLinkedTemplatesForExtensions`: master part
(when the master opted in) followed by the agent-pool parts. -/
def linkedTemplatesForExtension (httpGet : GoStr → HttpResult)
    (properties : Properties) (extensionProfile : ExtensionProfile) :
    Except GoStr GoStr :=
  match linkedTemplateMasterPart httpGet properties extensionProfile with
  | Except.error e => Except.error e
  | Except.ok ms =>
    match linkedTemplatesForPools httpGet (propertiesOrchestratorType properties)
        extensionProfile properties.agentPoolProfiles with
    | Except.error e => Except.error e
    | Except.ok ps => Except.ok (ms ++ ps)

/-- The extension loop of `getLinkedTemplatesForExtensions`, with the Go
code's early `return ""` on any failure modelled as error propagation. -/
def linkedTemplatesForExtensionProfiles (httpGet : GoStr → HttpResult)
    (properties : Properties) : List ExtensionProfile → Except GoStr GoStr
  | [] => Except.ok []
  | extensionProfile :: rest =>
    match linkedTemplatesForExtension httpGet properties extensionProfile with
    | Except.error e => Except.error e
    | Except.ok frag =>
      match linkedTemplatesForExtensionProfiles httpGet properties rest with
      | Except.error e => Except.error e
      | Except.ok r => Except.ok (frag ++ r)

/-- `getLinkedTemplatesForExtensions` (engine.go:583): concatenates the
fragments of every opted-in (master/pool, extension) pair; on any failure
the Go function prints the error (dropped here) and returns the empty
string — the error value itself is not returned to the caller. -/
def getLinkedTemplatesForExtensions (httpGet : GoStr → HttpResult)
    (properties : Properties) : GoStr :=
  match linkedTemplatesForExtensionProfiles httpGet properties
      properties.extensionProfiles with
  | Except.error _ => []
  | Except.ok result => result

/-! ## C10: case sensitivity of extension-name matching -/

/-- `validateProfileOptedForExtension` opts a profile in exactly when some
listed extension's name equals the declared name case-sensitively. -/
theorem validateOptedIn_iff :
    ∀ (name : GoStr) (exts : List Extension),
      (validateProfileOptedForExtension name exts).1 = true ↔
        ∃ e ∈ exts, e.name = name
  | name, [] => by simp [validateProfileOptedForExtension]
  | name, e :: rest => by
    by_cases he : name = e.name
    · simp only [validateProfileOptedForExtension, if_pos he]
      simp only [true_iff]
      exact ⟨e, List.mem_cons_self e rest, he.symm⟩
    · simp only [validateProfileOptedForExtension, if_neg he]
      rw [validateOptedIn_iff name rest]
      constructor
      · rintro ⟨x, hx, hn⟩
        exact ⟨x, List.mem_cons_of_mem e hx, hn⟩
      · rintro ⟨x, hx, hn⟩
        rcases List.mem_cons.mp hx with h | h
        · subst h
          exact absurd hn.symm he
        · exact ⟨x, h, hn⟩

/-- C10: opt-in detection is case-sensitive (an opt-in differing only in
letter case is treated as not opted in), while the catalog lookups of
`makeExtensionScriptCommands` and `makeWindowsExtensionScriptCommands` match
the same names case-insensitively and therefore succeed on the
case-mismatched pair (`thing` vs `Thing`). -/
theorem extensionNameMatching_case_inconsistency :
    (∀ (name : GoStr) (exts : List Extension),
      (validateProfileOptedForExtension name exts).1 = true ↔
        ∃ e ∈ exts, e.name = name)
    ∧ validateProfileOptedForExtension (gs "thing")
        [⟨gs "Thing", gs "single"⟩] = (false, [])
    ∧ equalFold (gs "thing") (gs "Thing") = true
    ∧ isErr (makeExtensionScriptCommands ⟨gs "thing", gs "single"⟩
        [⟨gs "Thing", gs "1.0", gs "https://r/", gs "s.sh", []⟩] (gs "ci")) = false
    ∧ isErr (makeWindowsExtensionScriptCommands ⟨gs "thing", gs "single"⟩
        [⟨gs "Thing", gs "1.0", gs "https://r/", gs "s.sh", []⟩] (gs "ci")) = false :=
  ⟨validateOptedIn_iff, by decide, by decide, by decide, by decide⟩

/-! ## C6: loop-count substitution with and without surrounding quotes -/

/-- C6: in linked-template substitution, when the loop-count string parses
as an integer (single-instance mode sets it to `"1"`) the *quoted*
placeholder `"EXTENSION_LOOP_COUNT"` — quotes included — is replaced by the
bare value; when it does not parse (the expression strings of the non-single
modes), the bare placeholder `EXTENSION_LOOP_COUNT` is replaced and
surrounding quotes are left alone.  Single mode yields loop count `"1"`,
which parses; the master's default loop count is an expression, which does
not. -/
theorem extensionLoopCount_quoting (httpGet : GoStr → HttpResult)
    (extTargetVMNamePrefix orchestratorType loopOffset : GoStr)
    (masterProfile : MasterProfile) (extensionProfile : ExtensionProfile)
    (t : GoStr)
    (hfetch : getLinkedTemplateTextForURL httpGet extensionProfile.rootURL
      orchestratorType extensionProfile.name extensionProfile.version
      extensionProfile.urlQuery = Except.ok t) :
    (∀ loopCount, (goAtoi loopCount).isSome = true →
      internalGetPoolLinkedTemplateText httpGet extTargetVMNamePrefix
          orchestratorType loopCount loopOffset extensionProfile =
        Except.ok (replaceAll
          (replaceAll
            (replaceAll
              (replaceAll
                (replaceAll
                  (if goContains extTargetVMNamePrefix (gs "master") then
                    replaceAll t (gs "EXTENSION_TARGET_VM_TYPE") (gs "master")
                  else
                    replaceAll t (gs "EXTENSION_TARGET_VM_TYPE") (gs "agent"))
                  (gs "EXTENSION_PARAMETERS_REPLACE")
                  (gs "[parameters('" ++ extensionProfile.name ++ gs "Parameters')]"))
                (gs "EXTENSION_URL_REPLACE") extensionProfile.rootURL)
              (gs "EXTENSION_TARGET_VM_NAME_PREFIX") extTargetVMNamePrefix)
            (gs "\"EXTENSION_LOOP_COUNT\"") loopCount)
          (gs "EXTENSION_LOOP_OFFSET") loopOffset))
    ∧ (∀ loopCount, (goAtoi loopCount).isSome = false →
      internalGetPoolLinkedTemplateText httpGet extTargetVMNamePrefix
          orchestratorType loopCount loopOffset extensionProfile =
        Except.ok (replaceAll
          (replaceAll
            (replaceAll
              (replaceAll
                (replaceAll
                  (if goContains extTargetVMNamePrefix (gs "master") then
                    replaceAll t (gs "EXTENSION_TARGET_VM_TYPE") (gs "master")
                  else
                    replaceAll t (gs "EXTENSION_TARGET_VM_TYPE") (gs "agent"))
                  (gs "EXTENSION_PARAMETERS_REPLACE")
                  (gs "[parameters('" ++ extensionProfile.name ++ gs "Parameters')]"))
                (gs "EXTENSION_URL_REPLACE") extensionProfile.rootURL)
              (gs "EXTENSION_TARGET_VM_NAME_PREFIX") extTargetVMNamePrefix)
            (gs "EXTENSION_LOOP_COUNT") loopCount)
          (gs "EXTENSION_LOOP_OFFSET") loopOffset))
    ∧ getMasterLinkedTemplateText httpGet masterProfile orchestratorType
        extensionProfile (gs "single") =
      internalGetPoolLinkedTemplateText httpGet
        (gs "variables('masterVMNamePrefix')") orchestratorType (gs "1")
        (gs "variables('masterOffset')") extensionProfile
    ∧ goAtoi (gs "1") = some 1
    ∧ goAtoi (gs "[sub(variables('masterCount'), variables('masterOffset'))]") =
        none := by
  refine ⟨?_, ?_, ?_, by decide, by decide⟩
  · intro loopCount h
    simp only [internalGetPoolLinkedTemplateText, hfetch, h, if_true]
  · intro loopCount h
    simp only [internalGetPoolLinkedTemplateText, hfetch, h, Bool.false_eq_true,
      if_false]
  · rfl

/-- The C6 witness's extension profile. -/
def epC6 : ExtensionProfile :=
  ⟨gs "ext1", gs "1.0", gs "https://r/", gs "s.sh", []⟩

/-- The C6 witness's remote world: orchestrator support succeeds, the linked
template is `"EXTENSION_LOOP_COUNT"|EXTENSION_LOOP_OFFSET`. -/
def httpGetC6 : GoStr → HttpResult := fun url =>
  if url = getExtensionURL (gs "https://r/") (gs "ext1") (gs "1.0")
      (gs "supported-orchestrators.json") [] then
    HttpResult.response 200 (gs "200 OK") (gs "[\"Kubernetes\"]")
  else
    HttpResult.response 200 (gs "200 OK")
      (gs "\"EXTENSION_LOOP_COUNT\"|EXTENSION_LOOP_OFFSET")

/-- A master profile for the C6 witness (its fields are unused by
`getMasterLinkedTemplateText`, as in the source). -/
def mpC6 : MasterProfile :=
  { count := 1, dnsPrefix := gs "m", subnet := gs "10.0.0.0/24"
    firstConsecutiveStaticIP := gs "10.0.0.5", extensions := [] }

/-- Witness for C6: single mode renders the quoted placeholder as the bare
`1` (quotes removed); an expression loop count replaces only the bare
placeholder, leaving the quotes in place. -/
theorem extensionLoopCount_quoting_witness :
    getMasterLinkedTemplateText httpGetC6 mpC6 (gs "Kubernetes") epC6
        (gs "single") =
      Except.ok (gs "1|variables('masterOffset')")
    ∧ internalGetPoolLinkedTemplateText httpGetC6
        (gs "variables('agentVMNamePrefix')") (gs "Kubernetes")
        (gs "[variables('agentCount'))]") [] epC6 =
      Except.ok (gs "\"[variables('agentCount'))]\"|") := by
  have h1 := extensionLoopCount_quoting httpGetC6
    (gs "variables('masterVMNamePrefix')") (gs "Kubernetes")
    (gs "variables('masterOffset')") mpC6 epC6
    (gs "\"EXTENSION_LOOP_COUNT\"|EXTENSION_LOOP_OFFSET") (by decide)
  have h2 := extensionLoopCount_quoting httpGetC6
    (gs "variables('agentVMNamePrefix')") (gs "Kubernetes") [] mpC6 epC6
    (gs "\"EXTENSION_LOOP_COUNT\"|EXTENSION_LOOP_OFFSET") (by decide)
  constructor
  · rw [h1.2.2.1, h1.1 (gs "1") (by decide)]
    decide
  · rw [h2.2.1 (gs "[variables('agentCount'))]") (by decide)]
    decide

/-! ## C2: failure behaviour of `getLinkedTemplatesForExtensions` -/

/-- If some opted-in pool's fragment resolution fails, the pool loop fails. -/
theorem linkedTemplatesForPools_isErr (httpGet : GoStr → HttpResult)
    (orchestratorType : GoStr) (extensionProfile : ExtensionProfile) :
    ∀ (pools : List AgentPoolProfile) (ap : AgentPoolProfile), ap ∈ pools →
      (validateProfileOptedForExtension extensionProfile.name ap.extensions).1 =
        true →
      isErr (getAgentPoolLinkedTemplateText httpGet ap orchestratorType
        extensionProfile
        (validateProfileOptedForExtension extensionProfile.name
          ap.extensions).2) = true →
      isErr (linkedTemplatesForPools httpGet orchestratorType extensionProfile
        pools) = true
  | [], ap, hap, _, _ => absurd hap (List.not_mem_nil ap)
  | a :: rest, ap, hap, hopt, herr => by
    rcases List.mem_cons.mp hap with rfl | hmem
    · unfold linkedTemplatesForPools
      rw [if_pos hopt]
      cases hga : getAgentPoolLinkedTemplateText httpGet ap orchestratorType
          extensionProfile
          (validateProfileOptedForExtension extensionProfile.name
            ap.extensions).2 with
      | error e => simp [isErr]
      | ok dta => rw [hga] at herr; simp [isErr] at herr
    · unfold linkedTemplatesForPools
      have ih := linkedTemplatesForPools_isErr httpGet orchestratorType
        extensionProfile rest ap hmem hopt herr
      by_cases hopta : (validateProfileOptedForExtension extensionProfile.name
          a.extensions).1 = true
      · rw [if_pos hopta]
        cases hga : getAgentPoolLinkedTemplateText httpGet a orchestratorType
            extensionProfile
            (validateProfileOptedForExtension extensionProfile.name
              a.extensions).2 with
        | error e => simp [isErr]
        | ok dta =>
          cases hrest : linkedTemplatesForPools httpGet orchestratorType
              extensionProfile rest with
          | error e => simp [isErr]
          | ok r => rw [hrest] at ih; simp [isErr] at ih
      · rw [if_neg hopta]
        exact ih

/-- If the master part or some opted-in pool part of one extension fails,
that extension's whole fragment resolution fails. -/
theorem linkedTemplatesForExtension_isErr (httpGet : GoStr → HttpResult)
    (properties : Properties) (extensionProfile : ExtensionProfile)
    (h : ((validateProfileOptedForExtension extensionProfile.name
          properties.masterProfile.extensions).1 = true
        ∧ isErr (getMasterLinkedTemplateText httpGet properties.masterProfile
            (propertiesOrchestratorType properties) extensionProfile
            (validateProfileOptedForExtension extensionProfile.name
              properties.masterProfile.extensions).2) = true)
      ∨ (∃ ap ∈ properties.agentPoolProfiles,
          (validateProfileOptedForExtension extensionProfile.name
            ap.extensions).1 = true
          ∧ isErr (getAgentPoolLinkedTemplateText httpGet ap
              (propertiesOrchestratorType properties) extensionProfile
              (validateProfileOptedForExtension extensionProfile.name
                ap.extensions).2) = true)) :
    isErr (linkedTemplatesForExtension httpGet properties extensionProfile) =
      true := by
  rcases h with ⟨hopt, herr⟩ | ⟨ap, hmem, hopt, herr⟩
  · unfold linkedTemplatesForExtension linkedTemplateMasterPart
    rw [if_pos hopt]
    cases hgm : getMasterLinkedTemplateText httpGet properties.masterProfile
        (propertiesOrchestratorType properties) extensionProfile
        (validateProfileOptedForExtension extensionProfile.name
          properties.masterProfile.extensions).2 with
    | error e => simp [isErr]
    | ok dta => rw [hgm] at herr; simp [isErr] at herr
  · have hpools := linkedTemplatesForPools_isErr httpGet
      (propertiesOrchestratorType properties) extensionProfile
      properties.agentPoolProfiles ap hmem hopt herr
    unfold linkedTemplatesForExtension
    cases hm : linkedTemplateMasterPart httpGet properties extensionProfile with
    | error e => simp [isErr]
    | ok ms =>
      cases hp : linkedTemplatesForPools httpGet
          (propertiesOrchestratorType properties) extensionProfile
          properties.agentPoolProfiles with
      | error e => simp [isErr]
      | ok ps => rw [hp] at hpools; simp [isErr] at hpools

/-- A failing member extension makes the whole extension loop fail. -/
theorem linkedTemplatesForExtensionProfiles_isErr (httpGet : GoStr → HttpResult)
    (properties : Properties) :
    ∀ (exts : List ExtensionProfile) (ep : ExtensionProfile), ep ∈ exts →
      isErr (linkedTemplatesForExtension httpGet properties ep) = true →
      isErr (linkedTemplatesForExtensionProfiles httpGet properties exts) = true
  | [], ep, hmem, _ => absurd hmem (List.not_mem_nil ep)
  | e :: rest, ep, hmem, herr => by
    rcases List.mem_cons.mp hmem with rfl | hmem'
    · unfold linkedTemplatesForExtensionProfiles
      cases hge : linkedTemplatesForExtension httpGet properties ep with
      | error x => simp [isErr]
      | ok frag => rw [hge] at herr; simp [isErr] at herr
    · unfold linkedTemplatesForExtensionProfiles
      have ih := linkedTemplatesForExtensionProfiles_isErr httpGet properties
        rest ep hmem' herr
      cases hge : linkedTemplatesForExtension httpGet properties e with
      | error x => simp [isErr]
      | ok frag =>
        cases hrest : linkedTemplatesForExtensionProfiles httpGet properties
            rest with
        | error x => simp [isErr]
        | ok r => rw [hrest] at ih; simp [isErr] at ih

/-- C2 (amended): when resolving any opted-in (master/pool, extension) pair
fails, `getLinkedTemplatesForExtensions` returns the empty string — every
accumulated fragment is discarded; the error itself is printed, not
returned, so the caller receives only the empty string. -/
theorem linkedTemplates_fail_returns_empty (httpGet : GoStr → HttpResult)
    (props : Properties)
    (h : ∃ ep ∈ props.extensionProfiles,
        ((validateProfileOptedForExtension ep.name
            props.masterProfile.extensions).1 = true
          ∧ isErr (getMasterLinkedTemplateText httpGet props.masterProfile
              (propertiesOrchestratorType props) ep
              (validateProfileOptedForExtension ep.name
                props.masterProfile.extensions).2) = true)
        ∨ (∃ ap ∈ props.agentPoolProfiles,
            (validateProfileOptedForExtension ep.name ap.extensions).1 = true
            ∧ isErr (getAgentPoolLinkedTemplateText httpGet ap
                (propertiesOrchestratorType props) ep
                (validateProfileOptedForExtension ep.name
                  ap.extensions).2) = true)) :
    getLinkedTemplatesForExtensions httpGet props = [] := by
  obtain ⟨ep, hmem, hcase⟩ := h
  have he : isErr (linkedTemplatesForExtension httpGet props ep) = true :=
    linkedTemplatesForExtension_isErr httpGet props ep hcase
  have hall := linkedTemplatesForExtensionProfiles_isErr httpGet props
    props.extensionProfiles ep hmem he
  unfold getLinkedTemplatesForExtensions
  cases hres : linkedTemplatesForExtensionProfiles httpGet props
      props.extensionProfiles with
  | error e => rfl
  | ok r => rw [hres] at hall; simp [isErr] at hall

/-- The C2 fixtures: one declared extension, master opted in, no agent
pools. -/
def epC2 : ExtensionProfile :=
  ⟨gs "ext1", gs "1.0", gs "https://r/", gs "s.sh", []⟩

def propsC2 : Properties :=
  { orchestratorProfile := some ⟨gs "Kubernetes", none⟩
    certificateProfile := none
    aadProfile := none
    masterProfile :=
      { count := 1, dnsPrefix := gs "m", subnet := gs "10.0.0.0/24"
        firstConsecutiveStaticIP := gs "10.0.0.5"
        extensions := [⟨gs "ext1", gs "single"⟩] }
    agentPoolProfiles := []
    extensionProfiles := [epC2] }

/-- `propsC2` with the extension catalog and the opt-in removed. -/
def propsC2e : Properties :=
  { propsC2 with
    masterProfile :=
      { count := 1, dnsPrefix := gs "m", subnet := gs "10.0.0.0/24"
        firstConsecutiveStaticIP := gs "10.0.0.5", extensions := [] }
    extensionProfiles := [] }

/-- A remote world whose every fetch fails with `connection refused`. -/
def httpFailA : GoStr → HttpResult := fun _ =>
  HttpResult.transportError (gs "connection refused")

/-- A remote world whose every fetch fails with `timeout`. -/
def httpFailB : GoStr → HttpResult := fun _ =>
  HttpResult.transportError (gs "timeout")

/-- C2 (counterexample to the claim as stated): when resolution of the one
opted-in extension fails, `getLinkedTemplatesForExtensions` returns the
empty string and nothing else — two different underlying errors produce the
same output, which is also identical to the output of a successful run over
a specification with no extensions at all, so the underlying error is *not*
surfaced to the immediate caller. -/
theorem linkedTemplates_error_not_surfaced :
    getLinkedTemplatesForExtensions httpFailA propsC2 = []
    ∧ getLinkedTemplatesForExtensions httpFailB propsC2 = []
    ∧ getLinkedTemplatesForExtensions httpFailA propsC2 =
        getLinkedTemplatesForExtensions httpFailA propsC2e := by
  exact ⟨by decide, by decide, by decide⟩

/-- Witness for the amended C2 at the concrete failing fixture. -/
theorem linkedTemplates_fail_returns_empty_witness :
    getLinkedTemplatesForExtensions httpFailB propsC2 = [] :=
  linkedTemplates_fail_returns_empty httpFailB propsC2
    ⟨epC2, by decide, Or.inl ⟨by decide, by decide⟩⟩

/-! ## KubeConfig generator (engine.go:37–92) -/

/-- The asset name `kubeConfigJSON`.  Modelled from the spec: the constant's
value lives in a source file not provided; only its role as the asset-store
key matters here. -/
def kubeConfigJSON : GoStr := gs "kubeconfig.json"

/-- `DefaultInternalLbStaticIPOffset`.  Modelled from the spec: the constant
is defined outside the provided sources; the spec says only "a fixed byte
offset".  The value 10 is used; no theorem depends on it. -/
def DefaultInternalLbStaticIPOffset : Nat := 10

/-- `helpers.IsTrueBoolPointer`: a non-nil `*bool` that is true. -/
def isTrueBoolPointer : Option Bool → Bool
  | some b => b
  | none => false

/-- `helpers.GetCloudTargetEnv`.  Modelled from the spec: the helper is
outside the provided sources; the claims do not depend on its value. -/
def getCloudTargetEnv (location : GoStr) : GoStr := gs "AzurePublicCloud"

/-- `api.FormatAzureProdFQDNByLocation`.  Modelled from the spec: "the
region-specific public DNS name" for a DNS prefix and location. -/
def formatAzureProdFQDNByLocation (fqdnPrefix location : GoStr) : GoStr :=
  fqdnPrefix ++ gs "." ++ location ++ gs ".cloudapp.azure.com"

/-- One decimal octet of a dotted-quad IPv4 address. -/
def parseIPv4Octet (s : GoStr) : Option Nat :=
  if s = [] ∨ ¬ (∀ c ∈ s, c.isDigit = true) then none
  else
    let n := s.foldl (fun a c => a * 10 + (c.toNat - 48)) 0
    if n > 255 then none else some n

/-- `net.ParseIP(s).To4()`, modelled for dotted-quad decimal addresses (the
only form the engine's master static IPs take): four octets or failure. -/
def parseIPv4 (s : GoStr) : Option (Nat × Nat × Nat × Nat) :=
  match s.splitOn '.' with
  | [a, b, c, d] =>
    match parseIPv4Octet a, parseIPv4Octet b, parseIPv4Octet c,
        parseIPv4Octet d with
    | some x, some y, some z, some w => some (x, y, z, w)
    | _, _, _, _ => none
  | _ => none

/-- `net.IP.String` for an IPv4 address. -/
def ipString (a b c d : Nat) : GoStr :=
  natRepr a ++ gs "." ++ natRepr b ++ gs "." ++ natRepr c ++ gs "." ++ natRepr d

/-- The template placeholder for the CA certificate. -/
def phCaCert : GoStr := gs "\x7b\x7bWrapAsVerbatim \"parameters('caCertificate')\"\x7d\x7d"

/-- The template placeholder for the master public FQDN. -/
def phMasterFQDN : GoStr :=
  gs "\x7b\x7bWrapAsVerbatim \"reference(concat('Microsoft.Network/publicIPAddresses/', variables('masterPublicIPAddressName'))).dnsSettings.fqdn\"\x7d\x7d"

/-- The template placeholder for the resource group. -/
def phResourceGroup : GoStr := gs "\x7b\x7bWrapAsVariable \"resourceGroup\"\x7d\x7d"

/-- The template placeholder for the auth-info block. -/
def phAuthInfo : GoStr := gs "\x7b\x7bauthInfo\x7d\x7d"

/-- The private-cluster condition of `GenerateKubeConfig` (engine.go:51–54):
orchestrator profile, kubernetes config and private-cluster config all
present, and the enabled flag a true pointer. -/
def clusterIsPrivate (properties : Properties) : Bool :=
  match properties.orchestratorProfile with
  | none => false
  | some op =>
    match op.kubernetesConfig with
    | none => false
    | some kc =>
      match kc.privateCluster with
      | none => false
      | some pc => isTrueBoolPointer pc.enabled

/-- The auth-info block of `GenerateKubeConfig` (engine.go:72–88): a
certificate + key JSON blob without an AAD profile, an azure auth-provider
blob (tenant defaulting to `common`) with one. -/
def kubeConfigAuthInfo (properties : Properties) (cp : CertificateProfile)
    (location : GoStr) : GoStr :=
  match properties.aadProfile with
  | none =>
    gs "\x7b\"client-certificate-data\":\"" ++
      base64EncodeToString cp.kubeConfigCertificate ++
      gs "\",\"client-key-data\":\"" ++
      base64EncodeToString cp.kubeConfigPrivateKey ++ gs "\"\x7d"
  | some aad =>
    gs "\x7b\"auth-provider\":\x7b\"name\":\"azure\",\"config\":\x7b\"environment\":\"" ++
      getCloudTargetEnv location ++ gs "\",\"tenant-id\":\"" ++
      (if aad.tenantID.length = 0 then gs "common" else aad.tenantID) ++
      gs "\",\"apiserver-id\":\"" ++ aad.serverAppID ++
      gs "\",\"client-id\":\"" ++ aad.clientAppID ++ gs "\"\x7d\x7d\x7d"

/-- The two trailing substitutions of `GenerateKubeConfig` (engine.go:70,
89): resource group and auth-info block. -/
def finishKubeConfig (kubeconfig : GoStr) (properties : Properties)
    (cp : CertificateProfile) (location : GoStr) : GoStr :=
  replaceAll
    (replaceAll kubeconfig phResourceGroup properties.masterProfile.dnsPrefix)
    phAuthInfo (kubeConfigAuthInfo properties cp location)

/-- `GenerateKubeConfig` (engine.go:37): checks properties and certificate
profile, loads the kubeconfig template from the asset store, substitutes the
CA certificate, the API-server address (internal LB IP / single master's
static IP / public FQDN), the resource group and the auth-info block. -/
def GenerateKubeConfig (asset : GoStr → Except GoStr GoStr)
    (properties : Option Properties) (location : GoStr) :
    Except GoStr GoStr :=
  match properties with
  | none => Except.error (gs "Properties nil in GenerateKubeConfig")
  | some properties =>
    match properties.certificateProfile with
    | none =>
      Except.error
        (gs "CertificateProfile property may not be nil in GenerateKubeConfig")
    | some certificateProfile =>
      match asset kubeConfigJSON with
      | Except.error e =>
        Except.error (gs "error reading kube config template file " ++
          kubeConfigJSON ++ gs ": " ++ e)
      | Except.ok b =>
        let kubeconfig := replaceAll b phCaCert
          (base64EncodeToString certificateProfile.caCertificate)
        if clusterIsPrivate properties then
          if properties.masterProfile.count > 1 then
            match parseIPv4 properties.masterProfile.firstConsecutiveStaticIP with
            | none =>
              Except.error (gs "MasterProfile.FirstConsecutiveStaticIP '" ++
                properties.masterProfile.firstConsecutiveStaticIP ++
                gs "' is an invalid IP address")
            | some (b0, b1, b2, b3) =>
              Except.ok (finishKubeConfig
                (replaceAll kubeconfig phMasterFQDN
                  (ipString b0 b1 b2 ((b3 + DefaultInternalLbStaticIPOffset) % 256)))
                properties certificateProfile location)
          else
            Except.ok (finishKubeConfig
              (replaceAll kubeconfig phMasterFQDN
                properties.masterProfile.firstConsecutiveStaticIP)
              properties certificateProfile location)
        else
          Except.ok (finishKubeConfig
            (replaceAll kubeconfig phMasterFQDN
              (formatAzureProdFQDNByLocation properties.masterProfile.dnsPrefix
                location))
            properties certificateProfile location)

/-- The API-server address as the claim (C7) words it: the internal
load-balancer IP (first master static IP with the fixed byte offset added to
its last octet, modulo a byte) when the cluster is private with more than
one master; the master's static IP itself when private with exactly one
master; the region-specific public DNS name otherwise.  Stated separately
from `GenerateKubeConfig` so the embedding can be compared against it. -/
def claimApiServerAddress (properties : Properties) (location : GoStr) :
    Option GoStr :=
  if clusterIsPrivate properties ∧ properties.masterProfile.count > 1 then
    match parseIPv4 properties.masterProfile.firstConsecutiveStaticIP with
    | none => none
    | some (b0, b1, b2, b3) =>
      some (ipString b0 b1 b2 ((b3 + DefaultInternalLbStaticIPOffset) % 256))
  else if clusterIsPrivate properties then
    some properties.masterProfile.firstConsecutiveStaticIP
  else
    some (formatAzureProdFQDNByLocation properties.masterProfile.dnsPrefix
      location)

/-! ## C7 helper lemmas: substring reasoning -/

/-- `goContains` agrees with list-infix containment. -/
theorem goContains_iff : ∀ (s sub : GoStr), goContains s sub = true ↔ sub <:+: s
  | [], sub => by
    unfold goContains
    by_cases hp : sub.isPrefixOf ([] : GoStr)
    · rw [if_pos hp]
      simp only [true_iff]
      exact (List.isPrefixOf_iff_prefix.mp hp).isInfix
    · rw [if_neg hp]
      constructor
      · intro h
        exact Bool.noConfusion h
      · intro h
        obtain ⟨s, t, hst⟩ := h
        have h1 := List.append_eq_nil.mp hst
        have h2 := List.append_eq_nil.mp h1.1
        rw [h2.2] at hp
        exact (hp (by decide)).elim
  | c :: rest, sub => by
    unfold goContains
    by_cases hp : sub.isPrefixOf (c :: rest)
    · rw [if_pos hp]
      simp only [true_iff]
      exact (List.isPrefixOf_iff_prefix.mp hp).isInfix
    · rw [if_neg hp]
      show goContains rest sub = true ↔ _
      rw [goContains_iff rest sub, List.infix_cons_iff]
      constructor
      · exact Or.inr
      · rintro (h | h)
        · exact absurd (List.isPrefixOf_iff_prefix.mpr h) hp
        · exact h

/-- The head of an append, by cases on the left part. -/
theorem head?_append_cases {α : Type} {X Y : List α} {a : α}
    (h : (X ++ Y).head? = some a) :
    X.head? = some a ∨ (X = [] ∧ Y.head? = some a) := by
  cases X with
  | nil => exact Or.inr ⟨rfl, by simpa using h⟩
  | cons x xs => exact Or.inl (by simpa using h)

/-- The last element survives a cons in front. -/
theorem getLast?_cons_some {α : Type} {X : List α} {a x : α}
    (h : X.getLast? = some a) : (x :: X).getLast? = some a := by
  cases X with
  | nil => exact Option.noConfusion h
  | cons y Y => rw [List.getLast?_cons_cons]; exact h

/-- Where a two-element pattern can sit inside an append: wholly in either
part, or straddling the boundary. -/
theorem infix_pair_append {a b : Char} :
    ∀ {X Y : List Char}, [a, b] <:+: X ++ Y →
      [a, b] <:+: X ∨ [a, b] <:+: Y ∨
        (X.getLast? = some a ∧ Y.head? = some b)
  | [], Y, h => Or.inr (Or.inl (by simpa using h))
  | x :: X', Y, h => by
    rw [List.cons_append, List.infix_cons_iff] at h
    rcases h with hpre | hinf
    · obtain ⟨t, ht⟩ := hpre
      rw [List.cons_append, List.cons_append, List.nil_append] at ht
      injection ht with h1 h2
      cases X' with
      | nil =>
        subst h1
        refine Or.inr (Or.inr ⟨rfl, ?_⟩)
        rw [List.nil_append] at h2
        rw [← h2]
        rfl
      | cons x' X'' =>
        rw [List.cons_append] at h2
        injection h2 with h3 _
        subst h1
        subst h3
        exact Or.inl ⟨[], X'', by simp⟩
    · rcases infix_pair_append hinf with h1 | h2 | h3
      · exact Or.inl (h1.trans ⟨[x], [], by simp⟩)
      · exact Or.inr (Or.inl h2)
      · exact Or.inr (Or.inr ⟨getLast?_cons_some h3.1, h3.2⟩)

/-- A list whose elements all differ from `'-'` cannot contain `['h', '-']`. -/
theorem not_infix_pair_of_no_dash {X : List Char} (hX : ∀ c ∈ X, c ≠ '-')
    (h : ['h', '-'] <:+: X) : False :=
  hX '-' (h.subset (by simp)) rfl

/-- `List.getD` keeps a property shared by the list's elements and the
default. -/
theorem getD_ne_dash :
    ∀ (l : List Char) (k : Nat) (d : Char),
      (∀ x ∈ l, x ≠ '-') → d ≠ '-' → l.getD k d ≠ '-'
  | [], _, d, _, hd => by simpa [List.getD] using hd
  | x :: t, 0, d, hl, _ => by simpa using hl x (by simp)
  | x :: t, k + 1, d, hl, hd => by
    simpa using getD_ne_dash t k d (fun y hy => hl y (by simp [hy])) hd

/-- No base64-alphabet character is a hyphen. -/
theorem b64c_ne_dash (k : Nat) : b64c k ≠ '-' :=
  getD_ne_dash base64Table k '?' (by decide) (by decide)

/-- The base64 encoder never emits a hyphen. -/
theorem b64_no_dash : ∀ (bs : List Nat), ∀ c ∈ base64Encode bs, c ≠ '-'
  | [], c, hc => absurd hc (by simp [base64Encode])
  | [a], c, hc => by
    simp only [base64Encode, List.mem_cons, List.not_mem_nil, or_false] at hc
    rcases hc with rfl | rfl | rfl | rfl
    · exact b64c_ne_dash _
    · exact b64c_ne_dash _
    · decide
    · decide
  | [a, b], c, hc => by
    simp only [base64Encode, List.mem_cons, List.not_mem_nil, or_false] at hc
    rcases hc with rfl | rfl | rfl | rfl
    · exact b64c_ne_dash _
    · exact b64c_ne_dash _
    · exact b64c_ne_dash _
    · decide
  | a :: b :: d :: rest, c, hc => by
    simp only [base64Encode, List.mem_cons] at hc
    rcases hc with rfl | rfl | rfl | rfl | hmem
    · exact b64c_ne_dash _
    · exact b64c_ne_dash _
    · exact b64c_ne_dash _
    · exact b64c_ne_dash _
    · exact b64_no_dash rest c hmem

/-- The certificate/key auth-info blob contains the two data keys and — as
long as the interpolated encodings are hyphen-free — not `auth-provider`. -/
theorem certBlob_facts (x y : GoStr)
    (hx : ∀ c ∈ x, c ≠ '-') (hy : ∀ c ∈ y, c ≠ '-') :
    goContains (gs "\x7b\"client-certificate-data\":\"" ++ x ++
        gs "\",\"client-key-data\":\"" ++ y ++ gs "\"\x7d")
      (gs "client-certificate-data") = true
    ∧ goContains (gs "\x7b\"client-certificate-data\":\"" ++ x ++
        gs "\",\"client-key-data\":\"" ++ y ++ gs "\"\x7d")
      (gs "client-key-data") = true
    ∧ goContains (gs "\x7b\"client-certificate-data\":\"" ++ x ++
        gs "\",\"client-key-data\":\"" ++ y ++ gs "\"\x7d")
      (gs "auth-provider") = false := by
  refine ⟨?_, ?_, ?_⟩
  · refine (goContains_iff _ _).mpr ?_
    have h1 : gs "client-certificate-data" <:+:
        gs "\x7b\"client-certificate-data\":\"" := by
      exact (goContains_iff _ _).mp (by decide)
    exact h1.trans ⟨[], x ++ gs "\",\"client-key-data\":\"" ++ y ++ gs "\"\x7d",
      by simp [List.append_assoc]⟩
  · refine (goContains_iff _ _).mpr ?_
    have h1 : gs "client-key-data" <:+: gs "\",\"client-key-data\":\"" := by
      exact (goContains_iff _ _).mp (by decide)
    exact h1.trans ⟨gs "\x7b\"client-certificate-data\":\"" ++ x,
      y ++ gs "\"\x7d", by simp [List.append_assoc]⟩
  · cases hgc : goContains (gs "\x7b\"client-certificate-data\":\"" ++ x ++
        gs "\",\"client-key-data\":\"" ++ y ++ gs "\"\x7d")
        (gs "auth-provider") with
    | false => rfl
    | true =>
      exfalso
      have hinf := (goContains_iff _ _).mp hgc
      have hpair : gs "h-" <:+: gs "auth-provider" :=
        (goContains_iff _ _).mp (by decide)
      have hhd : ['h', '-'] <:+:
          gs "\x7b\"client-certificate-data\":\"" ++
            (x ++ (gs "\",\"client-key-data\":\"" ++ (y ++ gs "\"\x7d"))) := by
        have := hpair.trans hinf
        simpa [List.append_assoc] using this
      rcases infix_pair_append hhd with hA | hR | ⟨_, hb⟩
      · exact absurd ((goContains_iff _ _).mpr hA) (by decide)
      · rcases infix_pair_append hR with hX | hR2 | ⟨_, hb⟩
        · exact not_infix_pair_of_no_dash hx hX
        · rcases infix_pair_append hR2 with hB | hR3 | ⟨_, hb⟩
          · exact absurd ((goContains_iff _ _).mpr hB) (by decide)
          · rcases infix_pair_append hR3 with hY | hC | ⟨_, hb⟩
            · exact not_infix_pair_of_no_dash hy hY
            · exact absurd ((goContains_iff _ _).mpr hC) (by decide)
            · exact absurd hb (by decide)
          · rcases head?_append_cases hb with hh | ⟨hynil, hh⟩
            · exact hy '-' (List.mem_of_mem_head? hh) rfl
            · exact absurd hh (by decide)
        · rcases head?_append_cases hb with hh | ⟨_, hh⟩
          · exact absurd hh (by decide)
          · rcases head?_append_cases hh with hh2 | ⟨_, hh2⟩
            · exact hy '-' (List.mem_of_mem_head? hh2) rfl
            · exact absurd hh2 (by decide)
      · rcases head?_append_cases hb with hh | ⟨_, hh⟩
        · exact hx '-' (List.mem_of_mem_head? hh) rfl
        · rcases head?_append_cases hh with hh2 | ⟨_, hh2⟩
          · exact absurd hh2 (by decide)
          · rcases head?_append_cases hh2 with hh3 | ⟨_, hh3⟩
            · exact hy '-' (List.mem_of_mem_head? hh3) rfl
            · exact absurd hh3 (by decide)

/-- Fusing the literal chunks around `"tenant-id":"common"`. -/
theorem tenantCommon_fuse (X : GoStr) :
    gs "\"," ++ (gs "\"tenant-id\":\"common\"" ++ (gs ",\"apiserver-id\":\"" ++ X)) =
      gs "\",\"tenant-id\":\"" ++ (gs "common" ++ (gs "\",\"apiserver-id\":\"" ++ X)) :=
  rfl

/-- C7: `GenerateKubeConfig` substitutes as the API-server address exactly
`claimApiServerAddress` — the internal load-balancer IP (first master static
IP with the fixed byte offset added to the last octet) when private with
more than one master, the single master's static IP itself when private with
one master, and the region-specific public DNS name otherwise; with no AAD
profile the auth-info block carries `client-certificate-data` and
`client-key-data` and no `auth-provider` key; with an AAD profile whose
tenant id is unset, the block carries `"tenant-id":"common"`. -/
theorem generateKubeConfig_address_and_authinfo (props : Properties)
    (cp : CertificateProfile) (loc tmpl addr : GoStr)
    (hcp : props.certificateProfile = some cp)
    (haddr : claimApiServerAddress props loc = some addr) :
    GenerateKubeConfig (fun _ => Except.ok tmpl) (some props) loc =
      Except.ok (replaceAll
        (replaceAll
          (replaceAll
            (replaceAll tmpl phCaCert (base64EncodeToString cp.caCertificate))
            phMasterFQDN addr)
          phResourceGroup props.masterProfile.dnsPrefix)
        phAuthInfo (kubeConfigAuthInfo props cp loc))
    ∧ (props.aadProfile = none →
        goContains (kubeConfigAuthInfo props cp loc)
          (gs "client-certificate-data") = true
        ∧ goContains (kubeConfigAuthInfo props cp loc)
            (gs "client-key-data") = true
        ∧ goContains (kubeConfigAuthInfo props cp loc)
            (gs "auth-provider") = false)
    ∧ (∀ aad, props.aadProfile = some aad → aad.tenantID = [] →
        goContains (kubeConfigAuthInfo props cp loc)
          (gs "\"tenant-id\":\"common\"") = true) := by
  refine ⟨?_, ?_, ?_⟩
  · unfold claimApiServerAddress at haddr
    by_cases hpriv : clusterIsPrivate props = true
    · by_cases hcnt : props.masterProfile.count > 1
      · rw [if_pos ⟨hpriv, hcnt⟩] at haddr
        cases hp4 : parseIPv4 props.masterProfile.firstConsecutiveStaticIP with
        | none => rw [hp4] at haddr; exact Option.noConfusion haddr
        | some q =>
          obtain ⟨b0, b1, b2, b3⟩ := q
          rw [hp4] at haddr
          simp only [Option.some.injEq] at haddr
          subst haddr
          simp only [GenerateKubeConfig, hcp]
          rw [if_pos hpriv, if_pos hcnt, hp4]
          rfl
      · rw [if_neg (fun hand => hcnt hand.2), if_pos hpriv] at haddr
        simp only [Option.some.injEq] at haddr
        subst haddr
        simp only [GenerateKubeConfig, hcp]
        rw [if_pos hpriv, if_neg hcnt]
        rfl
    · rw [if_neg (fun hand => hpriv hand.1), if_neg hpriv] at haddr
      simp only [Option.some.injEq] at haddr
      subst haddr
      simp only [GenerateKubeConfig, hcp]
      rw [if_neg hpriv]
      rfl
  · intro haad
    have hrw : kubeConfigAuthInfo props cp loc =
        gs "\x7b\"client-certificate-data\":\"" ++
          base64EncodeToString cp.kubeConfigCertificate ++
          gs "\",\"client-key-data\":\"" ++
          base64EncodeToString cp.kubeConfigPrivateKey ++ gs "\"\x7d" := by
      simp [kubeConfigAuthInfo, haad]
    rw [hrw]
    exact certBlob_facts _ _ (b64_no_dash _) (b64_no_dash _)
  · intro aad haad htid
    have hrw : kubeConfigAuthInfo props cp loc =
        gs "\x7b\"auth-provider\":\x7b\"name\":\"azure\",\"config\":\x7b\"environment\":\"" ++
          getCloudTargetEnv loc ++ gs "\",\"tenant-id\":\"" ++ gs "common" ++
          gs "\",\"apiserver-id\":\"" ++ aad.serverAppID ++
          gs "\",\"client-id\":\"" ++ aad.clientAppID ++ gs "\"\x7d\x7d\x7d" := by
      simp [kubeConfigAuthInfo, haad, htid]
    rw [hrw]
    refine (goContains_iff _ _).mpr ?_
    refine ⟨gs "\x7b\"auth-provider\":\x7b\"name\":\"azure\",\"config\":\x7b\"environment\":\"" ++
      getCloudTargetEnv loc ++ gs "\",",
      gs ",\"apiserver-id\":\"" ++ aad.serverAppID ++ gs "\",\"client-id\":\"" ++
        aad.clientAppID ++ gs "\"\x7d\x7d\x7d", ?_⟩
    simp only [List.append_assoc]
    rw [tenantCommon_fuse]

/-- The C7 witness's certificate profile. -/
def cpC7 : CertificateProfile :=
  { caCertificate := gs "ca", kubeConfigCertificate := gs "cert"
    kubeConfigPrivateKey := gs "key" }

/-- The C7 witness's cluster: private, one master, static IP `10.0.0.4`, no
AAD profile. -/
def propsC7 : Properties :=
  { orchestratorProfile := some ⟨gs "Kubernetes", some ⟨some ⟨some true⟩⟩⟩
    certificateProfile := some cpC7
    aadProfile := none
    masterProfile :=
      { count := 1, dnsPrefix := gs "clu", subnet := gs "10.0.0.0/24"
        firstConsecutiveStaticIP := gs "10.0.0.4", extensions := [] }
    agentPoolProfiles := []
    extensionProfiles := [] }

/-- `propsC7` with three masters. -/
def propsC7m : Properties :=
  { propsC7 with
    masterProfile :=
      { count := 3, dnsPrefix := gs "clu", subnet := gs "10.0.0.0/24"
        firstConsecutiveStaticIP := gs "10.0.0.4", extensions := [] } }

/-- The C7 witness's kubeconfig template. -/
def tmplC7 : GoStr :=
  gs "server: " ++ phMasterFQDN ++ gs " auth: " ++ phAuthInfo

set_option maxRecDepth 4000 in
/-- Witness for C7: with one private master and static IP `10.0.0.4` the
server address is `10.0.0.4` itself (no DNS name); with three masters it is
the offset IP `10.0.0.14`; without an AAD profile the auth-info block holds
both data keys and no `auth-provider`. -/
theorem generateKubeConfig_witness :
    GenerateKubeConfig (fun _ => Except.ok tmplC7) (some propsC7) (gs "westus2") =
      Except.ok (gs "server: 10.0.0.4 auth: \x7b\"client-certificate-data\":\"Y2VydA==\",\"client-key-data\":\"a2V5\"\x7d")
    ∧ GenerateKubeConfig (fun _ => Except.ok tmplC7) (some propsC7m) (gs "westus2") =
      Except.ok (gs "server: 10.0.0.14 auth: \x7b\"client-certificate-data\":\"Y2VydA==\",\"client-key-data\":\"a2V5\"\x7d")
    ∧ goContains (kubeConfigAuthInfo propsC7 cpC7 (gs "westus2"))
        (gs "auth-provider") = false := by
  have h1 := generateKubeConfig_address_and_authinfo propsC7 cpC7 (gs "westus2")
    tmplC7 (gs "10.0.0.4") rfl (by decide)
  have h2 := generateKubeConfig_address_and_authinfo propsC7m cpC7 (gs "westus2")
    tmplC7 (gs "10.0.0.14") rfl (by decide)
  refine ⟨?_, ?_, (h1.2.1 rfl).2.2⟩
  · rw [h1.1]
    decide
  · rw [h2.1]
    decide

/-! ## C8: custom-script packaging -/

/-- The gzip stream header bytes (magic + deflate method). -/
def gzipHeader : List Nat := [31, 139, 8]

/-- Modelled from the spec: `compress/gzip` is outside the provided sources;
the spec fixes only that compression is deterministic and lossless
("gzip-compresses", and decompression recovers the input).  Modelled as a
deterministic, injective framing: the gzip header followed by the payload. -/
def gzipCompress (data : List Nat) : List Nat := gzipHeader ++ data

/-- Modelled from the spec: the inverse of `gzipCompress` — strip and check
the header. -/
def gzipDecompress (l : List Nat) : Option (List Nat) :=
  if gzipHeader.isPrefixOf l then some (l.drop gzipHeader.length) else none

/-- `getBase64CustomScriptFromStr` (engine.go:460): gzip then base64.  (A Go
string is a byte sequence; the packager pipeline is byte-level, so the
argument is the script's bytes.) -/
def getBase64CustomScriptFromStr (str : List Nat) : List Char :=
  base64Encode (gzipCompress str)

/-- `getBase64CustomScript` (engine.go:447): the asset's bytes with every
`\r\n` normalized to `\n`, then packaged by `getBase64CustomScriptFromStr`.
The asset store is outside the function, so the script's bytes are the
argument. -/
def getBase64CustomScript (b : List Nat) : List Char :=
  getBase64CustomScriptFromStr (replaceAll b [13, 10] [10])

/-- Decompressing a compressed payload gives the payload back. -/
theorem gzip_roundtrip (d : List Nat) :
    gzipDecompress (gzipCompress d) = some d := by
  unfold gzipCompress gzipDecompress
  rw [if_pos (List.isPrefixOf_iff_prefix.mpr ⟨d, rfl⟩), List.drop_left]

/-- Every byte of a `replaceAllF` output comes from the input or the
replacement. -/
theorem mem_replaceAllF {α : Type} [DecidableEq α] :
    ∀ (fuel : Nat) (s pat rep : List α) (x : α),
      x ∈ replaceAllF fuel s pat rep → x ∈ s ∨ x ∈ rep
  | 0, s, _, _, x, hx => Or.inl hx
  | _ + 1, [], _, _, x, hx => absurd hx (List.not_mem_nil x)
  | fuel + 1, c :: rest, pat, rep, x, hx => by
    unfold replaceAllF at hx
    split at hx
    case isTrue h =>
      rcases List.mem_append.mp hx with h1 | h2
      · exact Or.inr h1
      · rcases mem_replaceAllF fuel _ pat rep x h2 with h3 | h3
        · exact Or.inl (List.drop_subset _ _ h3)
        · exact Or.inr h3
    case isFalse h =>
      rcases List.mem_cons.mp hx with rfl | h2
      · exact Or.inl (List.mem_cons_self _ _)
      · rcases mem_replaceAllF fuel rest pat rep x h2 with h3 | h3
        · exact Or.inl (List.mem_cons_of_mem c h3)
        · exact Or.inr h3

/-- Every byte of a `replaceAll` output comes from the input or the
replacement. -/
theorem mem_replaceAll {α : Type} [DecidableEq α] {s pat rep : List α} {x : α}
    (hx : x ∈ replaceAll s pat rep) : x ∈ s ∨ x ∈ rep :=
  mem_replaceAllF s.length s pat rep x hx

/-- The alphabet index of an encoder character recovers the sextet. -/
theorem b64idx_b64c : ∀ k, k < 64 → b64idx (b64c k) = some k := by decide

/-- An encoder character for a sextet is never the padding character. -/
theorem b64c_ne_pad : ∀ k, k < 64 → b64c k ≠ '=' := by decide

/-- Standard base64 decoding inverts encoding on byte sequences. -/
theorem base64_roundtrip :
    ∀ (l : List Nat), (∀ x ∈ l, x < 256) →
      base64Decode (base64Encode l) = some l
  | [], _ => rfl
  | [a], h => by
    have ha : a < 256 := h a (by simp)
    have h1 : a / 4 < 64 := by omega
    have h2 : a % 4 * 16 < 64 := by omega
    simp only [base64Encode, base64Decode, b64idx_b64c _ h1, b64idx_b64c _ h2,
      if_pos rfl, and_self, if_pos]
    refine congrArg some ?_
    simp only [List.cons.injEq, and_true]
    omega
  | [a, b], h => by
    have ha : a < 256 := h a (by simp)
    have hb : b < 256 := h b (by simp)
    have h1 : a / 4 < 64 := by omega
    have h2 : a % 4 * 16 + b / 16 < 64 := by omega
    have h3 : b % 16 * 4 < 64 := by omega
    simp only [base64Encode, base64Decode, b64idx_b64c _ h1, b64idx_b64c _ h2,
      b64idx_b64c _ h3, if_neg (b64c_ne_pad _ h3), if_pos rfl]
    refine congrArg some ?_
    simp only [List.cons.injEq, and_true]
    refine ⟨by omega, by omega⟩
  | a :: b :: c :: rest, h => by
    have ha : a < 256 := h a (by simp)
    have hb : b < 256 := h b (by simp)
    have hc : c < 256 := h c (by simp)
    have h1 : a / 4 < 64 := by omega
    have h2 : a % 4 * 16 + b / 16 < 64 := by omega
    have h3 : b % 16 * 4 + c / 64 < 64 := by omega
    have h4 : c % 64 < 64 := by omega
    have ih := base64_roundtrip rest (fun x hx => h x (by simp [hx]))
    simp only [base64Encode, base64Decode, b64idx_b64c _ h1, b64idx_b64c _ h2,
      b64idx_b64c _ h3, b64idx_b64c _ h4, if_neg (b64c_ne_pad _ h3),
      if_neg (b64c_ne_pad _ h4), ih]
    refine congrArg some ?_
    simp only [List.cons.injEq]
    refine ⟨by omega, by omega, by omega, trivial⟩

/-- C8: custom-script packaging is deterministic in the input bytes, and
base64-decoding then gzip-decompressing the package recovers the input with
every `\r\n` (bytes `13, 10`) normalized to `\n` (byte `10`). -/
theorem customScriptPackaging_roundtrip (b : List Nat)
    (hb : ∀ x ∈ b, x < 256) :
    getBase64CustomScript b = getBase64CustomScript b
    ∧ (base64Decode (getBase64CustomScript b)).bind gzipDecompress =
        some (replaceAll b [13, 10] [10]) := by
  refine ⟨rfl, ?_⟩
  unfold getBase64CustomScript getBase64CustomScriptFromStr
  have hbytes : ∀ x ∈ gzipCompress (replaceAll b [13, 10] [10]), x < 256 := by
    intro x hx
    rcases List.mem_append.mp hx with hh | hr
    · simp only [gzipHeader, List.mem_cons, List.not_mem_nil, or_false] at hh
      rcases hh with rfl | rfl | rfl <;> omega
    · rcases mem_replaceAll hr with h1 | h1
      · exact hb x h1
      · simp only [List.mem_cons, List.not_mem_nil, or_false] at h1
        omega
  rw [base64_roundtrip _ hbytes]
  exact gzip_roundtrip _

/-- Witness for C8 at the concrete byte sequence `a\r\nb`. -/
theorem customScriptPackaging_witness :
    getBase64CustomScript [97, 13, 10, 98] = getBase64CustomScript [97, 13, 10, 98]
    ∧ (base64Decode (getBase64CustomScript [97, 13, 10, 98])).bind gzipDecompress =
        some (replaceAll [97, 13, 10, 98] [13, 10] [10]) :=
  customScriptPackaging_roundtrip [97, 13, 10, 98] (by decide)

end AksEngine
